import Mathlib

/-!
Verification of the change-set persistence engine
(`packages/core/src/unit-of-work/ChangeSetPersister.ts`).

The TypeScript class mutates change sets and entities in place and may throw.
We embed it as pure state-passing functions: every operation takes the data it
would mutate plus a `PState` (the driver-call trace and the identifier map) and
returns a `Res`, which carries the (possibly partially) mutated data both on
success and on failure — exactly the observable effect of in-place mutation
plus an exception.  The database driver is an oracle: a family of response
functions indexed by the number of driver calls issued so far, so any sequence
of driver behaviours is representable.
-/

namespace CSP

/-- A JavaScript runtime value as far as the persister inspects one:
`undefined`, `null`, booleans, numbers, strings, and `EntityIdentifier`
objects (represented by the uuid of the entity they stand for). -/
inductive Val where
  | undef
  | null
  | bool (b : Bool)
  | num (n : Int)
  | str (s : String)
  | ident (uuid : String)
deriving DecidableEq

/-- JavaScript truthiness for the values above (`undefined`, `null`, `false`,
`0` and the empty string are falsy; objects are always truthy). -/
def Val.truthy : Val → Bool
  | .undef => false
  | .null => false
  | .bool b => b
  | .num n => n != 0
  | .str s => s != ""
  | .ident _ => true

/-- Modelled from the spec: `Utils.isDefined(value, true)` (the utils module is
outside `src/`) — a value is "defined" when it is neither `undefined` nor
`null`; an "explicit value" in the spec's words. -/
def isDefinedStrict : Val → Bool
  | .undef => false
  | .null => false
  | _ => true

/-- A JavaScript plain object holding `Val`s: property/column name to value. -/
abbrev Record := List (String × Val)

/-- First binding of a key in a record, if any. -/
def lookupV : Record → String → Option Val
  | [], _ => none
  | (k', v) :: rest, k => if k' = k then some v else lookupV rest k

/-- Reading a missing key from a JavaScript object yields `undefined`. -/
def getV (r : Record) (k : String) : Val :=
  (lookupV r k).getD Val.undef

/-- JavaScript property assignment: overwrite the existing binding in place,
or append a new one. -/
def setV : Record → String → Val → Record
  | [], k, v => [(k, v)]
  | (k', v') :: rest, k, v =>
    if k' = k then (k, v) :: rest else (k', v') :: setV rest k v

/-- An entity instance: its property values, its stable identity token
(`__uuid`), and the wrapped-entity flags the persister sets.  Related
entities/collections held in properties are outside this flat value model. -/
structure Entity where
  props : Record
  uuid : String
  initialized : Bool
  populatedFlag : Bool
deriving DecidableEq

/-- A per-property descriptor from the metadata registry: property name,
column names, whether it is (part of) the primary key, an optional custom
scalar conversion (`customType.convertToJSValue`), and the optional
compute-on-create / compute-on-update hooks. -/
structure EntityProperty where
  name : String
  fieldNames : List String
  primary : Bool
  customType : Option (Val → Val)
  onCreate : Option (Entity → Val)
  onUpdate : Option (Entity → Val)

/-- Static description of an entity type. -/
structure EntityMetadata where
  name : String
  properties : List EntityProperty
  primaryKeys : List String
  compositePK : Bool
  versionProperty : Option String

/-- `ChangeSetType` from `ChangeSet.ts`. -/
inductive ChangeSetType where
  | create
  | update
  | delete
deriving DecidableEq

/-- A unit of pending work: target type name, operation kind, payload,
the entity, and the persisted flag. -/
structure ChangeSet where
  name : String
  type : ChangeSetType
  payload : Record
  entity : Entity
  persisted : Bool
deriving DecidableEq

/-- A driver `QueryResult`: affected-row count, generated insert id, and the
optional returned row (`RETURNING`-style). -/
structure QueryResult where
  affectedRows : Nat
  insertId : Val
  row : Option Record
deriving DecidableEq

/-- A predicate handed to the driver. -/
inductive Cond where
  | pkValue (v : Val)
  | fields (m : List (String × Val))
  | inSimple (field : String) (pks : List Val)
  | inComposite (field : String) (pks : List (List Val))
deriving DecidableEq

/-- One issued driver call, as recorded in the trace. -/
inductive DriverCall where
  | nativeInsert (name : String) (payload : Record)
  | nativeUpdate (name : String) (cond : Cond) (payload : Record)
  | nativeDelete (name : String) (cond : Cond)
  | findOne (name : String) (pk : Val) (fields : List String)
deriving DecidableEq

/-- An error escaping a persister operation: an opaque driver error (the
opaque payload is a numeric code), `OptimisticLockError.lockFailed` carrying
the identity token of the entity it references, or a JavaScript `TypeError`
from dereferencing `undefined`/`null` (the non-null assertions in the source). -/
inductive PersistError where
  | driver (code : Nat)
  | lockFailed (entityUuid : String)
  | typeError
deriving DecidableEq

/-- Mutable context threaded through an operation: the trace of driver calls
issued so far and the identifier map (uuid to `EntityIdentifier` cell; the
cell holds `none` until `setValue` is called). -/
structure PState where
  trace : List DriverCall
  idMap : List (String × Option Val)
deriving DecidableEq

/-- The outcome of a mutating step: `ok` on normal return, `err` when an
exception escapes — in both cases carrying the mutated data, since in-place
mutations performed before a throw remain visible to the caller. -/
inductive Res (α : Type) where
  | ok (a : α)
  | err (e : PersistError) (a : α)
deriving DecidableEq

/-- The mutated data carried by a `Res`, whether or not an error escaped. -/
def Res.val {α : Type} : Res α → α
  | .ok a => a
  | .err _ a => a

/-- `true` exactly on `Res.ok`. -/
def Res.isOk {α : Type} : Res α → Bool
  | .ok _ => true
  | .err _ _ => false

/-- The database driver, as an oracle: each response function also receives
the number of driver calls issued so far, so responses may vary over time.
A response of `Except.error code` models the driver call throwing. -/
structure Driver where
  nativeInsert : Nat → String → Record → Except Nat QueryResult
  nativeUpdate : Nat → String → Cond → Record → Except Nat QueryResult
  nativeDelete : Nat → String → Cond → Except Nat QueryResult
  findOne : Nat → String → Val → List String → Except Nat (Option Record)

/-- The metadata registry: `find` returns the metadata for a type name. -/
structure MetadataStorage where
  find : String → Option EntityMetadata

/-- The immutable collaborators of a `ChangeSetPersister` instance.  The
identifier map, being mutable, lives in `PState`; the hydrator is modelled
by the `hydrate` function below. -/
structure Persister where
  driver : Driver
  metadata : MetadataStorage

/-! ## Accessors modelled from the spec

The wrapped-entity helper (`entity.__helper`), the `EntityIdentifier` cell and
the `Utils` primary-key helpers live outside `src/`; the spec describes them
(sections 3 and 6), and the definitions below follow those descriptions. -/

/-- Modelled from the spec: the `EntityIdentifier` deferred-value cell
(outside `src/`) — `getValue` returns the cell's value, `undefined` while the
cell is still unset or the identifier is unknown to the map. -/
def getIdentValue (idMap : List (String × Option Val)) (uuid : String) : Val :=
  match idMap.lookup uuid with
  | some (some v) => v
  | _ => Val.undef

/-- Lookup of an identifier cell by uuid (`identifierMap.get`). -/
def lookupCell : List (String × Option Val) → String → Option (Option Val)
  | [], _ => none
  | (k', c) :: rest, k => if k' = k then some c else lookupCell rest k

/-- Modelled from the spec: `EntityIdentifier.setValue` (outside `src/`) —
write the resolved value into the existing cell for the given uuid. -/
def setIdentValue (idMap : List (String × Option Val)) (uuid : String) (v : Val) :
    List (String × Option Val) :=
  idMap.map (fun kv => if kv.1 = uuid then (kv.1, some v) else kv)

/-- Modelled from the spec: the wrapped entity's scalar `__primaryKey`
accessor (outside `src/`) — the value of the (first) primary-key property.
Composite keys are read through `primaryKeysList` instead. -/
def primaryKeyVal (meta : EntityMetadata) (e : Entity) : Val :=
  getV e.props (meta.primaryKeys.headD "")

/-- Modelled from the spec: the wrapped entity's `__primaryKeys` accessor
(outside `src/`) — each entity's ordered tuple of primary-key values. -/
def primaryKeysList (meta : EntityMetadata) (e : Entity) : List Val :=
  meta.primaryKeys.map (getV e.props)

/-- Modelled from the spec: the `__primaryKey` setter (outside `src/`) —
assign the (first) primary-key property of the entity. -/
def setPrimaryKey (meta : EntityMetadata) (e : Entity) (v : Val) : Entity :=
  { e with props := setV e.props (meta.primaryKeys.headD "") v }

/-- Modelled from the spec: `Utils.getPrimaryKeyHash` (outside `src/`) — the
single field name under which a batched primary-key predicate is keyed; a
simple key keeps its own name, as in the spec's delete example. -/
def getPrimaryKeyHash (primaryKeys : List String) : String :=
  String.intercalate "~~~" primaryKeys

/-- Modelled from the spec: `Utils.getPrimaryKeyCond` (outside `src/`) —
"primary key equals entity's primary key": one field equation per primary-key
property. -/
def getPrimaryKeyCond (e : Entity) (primaryKeys : List String) :
    List (String × Val) :=
  primaryKeys.map (fun pk => (pk, getV e.props pk))

/-- Modelled from the spec: the hydrator collaborator's
`hydrate(entity, meta, data, false, true)` (outside `src/`) — writes each raw
value in `data` into the corresponding entity field; the coercion applied by
a real hydrator is modelled as the identity. -/
def hydrateProps : Record → Record → Record
  | ps, [] => ps
  | ps, (k, v) :: rest => hydrateProps (setV ps k v) rest

/-- See `hydrateProps`: the hydrator applied to an entity. -/
def hydrate (e : Entity) (_meta : EntityMetadata) (data : Record) : Entity :=
  { e with props := hydrateProps e.props data }

/-- Property lookup by name inside a metadata object
(`meta.properties[name]`). -/
def findProp (meta : EntityMetadata) (name : String) : Option EntityProperty :=
  meta.properties.find? (fun p => p.name = name)

/-- `prop.customType ? prop.customType.convertToJSValue(value, platform) :
value`. -/
def applyCustomType (prop : EntityProperty) (v : Val) : Val :=
  match prop.customType with
  | some conv => conv v
  | none => v

/-! ## The ChangeSetPersister methods -/

/-- `mapReturnedValues`' reduce over `meta.properties`: collect, for each
property with a mapped column whose returned value is truthy and which the
entity does not already hold a defined value for, that returned value. -/
def returnedValuesData (e : Entity) (row : Record) :
    Record → List EntityProperty → Record
  | data, [] => data
  | data, prop :: rest =>
    match prop.fieldNames with
    | f0 :: _ =>
      if (getV row f0).truthy && !(isDefinedStrict (getV e.props prop.name)) then
        returnedValuesData e row (setV data prop.name (getV row f0)) rest
      else
        returnedValuesData e row data rest
    | [] => returnedValuesData e row data rest

/-- `mapReturnedValues` (lines 155-166): when the result carries a non-empty
returned row, hydrate the collected column values into the entity. -/
def mapReturnedValues (e : Entity) (res : QueryResult) (meta : EntityMetadata) :
    Entity :=
  match res.row with
  | some row =>
    if row.length > 0 then
      hydrate e meta (returnedValuesData e row [] meta.properties)
    else e
  | none => e

/-- `mapPrimaryKey` (lines 79-85): convert the generated id through the
primary-key property's custom type, keep the entity's key if it is already
defined and assign the converted id otherwise, then propagate the entity's
key value into its identifier-map cell.  Missing metadata entries or a
missing cell are the source's non-null assertions: a `TypeError`. -/
def mapPrimaryKey (meta : EntityMetadata) (value : Val) (cs : ChangeSet)
    (st : PState) : Res (ChangeSet × PState) :=
  match findProp meta (meta.primaryKeys.headD "") with
  | none => Res.err PersistError.typeError (cs, st)
  | some prop =>
    let insertId := applyCustomType prop value
    let e :=
      if isDefinedStrict (primaryKeyVal meta cs.entity) then cs.entity
      else setPrimaryKey meta cs.entity insertId
    let cs' := { cs with entity := e }
    match lookupCell st.idMap cs'.entity.uuid with
    | none => Res.err PersistError.typeError (cs', st)
    | some _ =>
      let idMap' := setIdentValue st.idMap cs'.entity.uuid (getV cs'.entity.props prop.name)
      Res.ok (cs', { st with idMap := idMap' })

/-- The first step of `processProperty` (lines 132-136): when the payload
holds an `EntityIdentifier` placeholder for this property, replace it with
the placeholder's resolved value. -/
def resolveIdentPayload (cs : ChangeSet) (prop : EntityProperty) (st : PState) :
    ChangeSet :=
  match getV cs.payload prop.name with
  | Val.ident uuid =>
    { cs with payload := setV cs.payload prop.name (getIdentValue st.idMap uuid) }
  | _ => cs

/-- `processProperty` (lines 131-149): resolve an `EntityIdentifier`
placeholder in the payload, run the compute-on-create hook (propagating a
primary-key assignment immediately), and run the compute-on-update hook. -/
def processProperty (meta : EntityMetadata) (cs : ChangeSet)
    (prop : EntityProperty) (st : PState) : Res (ChangeSet × PState) :=
  let cs := resolveIdentPayload cs prop st
  let afterCreate : Res (ChangeSet × PState) :=
    match prop.onCreate, cs.type with
    | some hook, ChangeSetType.create =>
      let v := hook cs.entity
      let cs := { cs with
        entity := { cs.entity with props := setV cs.entity.props prop.name v },
        payload := setV cs.payload prop.name v }
      if prop.primary then
        mapPrimaryKey meta (getV cs.entity.props prop.name) cs st
      else
        Res.ok (cs, st)
    | _, _ => Res.ok (cs, st)
  match afterCreate with
  | Res.err e a => Res.err e a
  | Res.ok (cs, st) =>
    match prop.onUpdate, cs.type with
    | some hook, ChangeSetType.update =>
      let v := hook cs.entity
      Res.ok ({ cs with
        entity := { cs.entity with props := setV cs.entity.props prop.name v },
        payload := setV cs.payload prop.name v }, st)
    | _, _ => Res.ok (cs, st)

/-- The loop body of `processProperties` over `Object.values(meta.properties)`. -/
def processPropsList (meta : EntityMetadata) :
    List EntityProperty → ChangeSet → PState → Res (ChangeSet × PState)
  | [], cs, st => Res.ok (cs, st)
  | prop :: rest, cs, st =>
    match processProperty meta cs prop st with
    | Res.err e a => Res.err e a
    | Res.ok (cs, st) => processPropsList meta rest cs st

/-- `processProperties` (lines 46-52). -/
def processProperties (P : Persister) (cs : ChangeSet) (st : PState) :
    Res (ChangeSet × PState) :=
  match P.metadata.find cs.name with
  | none => Res.err PersistError.typeError (cs, st)
  | some meta => processPropsList meta meta.properties cs st

/-- The upfront `changeSets.forEach(changeSet => this.processProperties(...))`
pass of `executeInserts`/`executeUpdates` (lines 18 and 26). -/
def processAll (P : Persister) :
    List ChangeSet → PState → Res (List ChangeSet × PState)
  | [], st => Res.ok ([], st)
  | cs :: rest, st =>
    match processProperties P cs st with
    | Res.err e (cs', st') => Res.err e (cs' :: rest, st')
    | Res.ok (cs', st') =>
      match processAll P rest st' with
      | Res.ok (rest', st'') => Res.ok (cs' :: rest', st'')
      | Res.err e (rest', st'') => Res.err e (cs' :: rest', st'')

/-- `markAsPopulated` (lines 90-101): set the populate flag on the entity.
The loop over related entities/collections is a no-op in this flat value
model, which carries no entity references inside property values. -/
def markAsPopulated (_meta : EntityMetadata) (e : Entity) : Entity :=
  { e with populatedFlag := true }

/-- `processOptimisticLock` (lines 116-129): nothing for unversioned types;
an `OptimisticLockError` for an UPDATE whose result reports zero affected
rows; otherwise a follow-up `findOne` restricted to the version column,
whose result refreshes the entity's version property (a `null` lookup result
crashes on the source's non-null assertion). -/
def processOptimisticLock (P : Persister) (meta : EntityMetadata)
    (cs : ChangeSet) (res : Option QueryResult) (st : PState) :
    Res (ChangeSet × PState) :=
  match meta.versionProperty with
  | none => Res.ok (cs, st)
  | some vp =>
    if cs.type = ChangeSetType.update &&
        (match res with | some r => r.affectedRows == 0 | none => false) then
      Res.err (PersistError.lockFailed cs.entity.uuid) (cs, st)
    else
      let pk := primaryKeyVal meta cs.entity
      let idx := st.trace.length
      let st := { st with trace := st.trace ++ [DriverCall.findOne meta.name pk [vp]] }
      match P.driver.findOne idx meta.name pk [vp] with
      | Except.error code => Res.err (PersistError.driver code) (cs, st)
      | Except.ok none => Res.err PersistError.typeError (cs, st)
      | Except.ok (some found) =>
        Res.ok ({ cs with entity :=
          { cs.entity with props := setV cs.entity.props vp (getV found vp) } }, st)

/-- `persistNewEntity` (lines 54-69): insert, remember whether the key was
already set, reconcile returned values, map the generated key if needed,
mark populated and initialized, run the lock reconciliation, mark persisted. -/
def persistNewEntity (P : Persister) (cs : ChangeSet) (st : PState) :
    Res (ChangeSet × PState) :=
  match P.metadata.find cs.name with
  | none => Res.err PersistError.typeError (cs, st)
  | some meta =>
    let idx := st.trace.length
    let st := { st with trace := st.trace ++ [DriverCall.nativeInsert cs.name cs.payload] }
    match P.driver.nativeInsert idx cs.name cs.payload with
    | Except.error code => Res.err (PersistError.driver code) (cs, st)
    | Except.ok res =>
      let hasPrimaryKey := isDefinedStrict (primaryKeyVal meta cs.entity)
      let cs := { cs with entity := mapReturnedValues cs.entity res meta }
      let step :=
        if !hasPrimaryKey then mapPrimaryKey meta res.insertId cs st
        else Res.ok (cs, st)
      match step with
      | Res.err e a => Res.err e a
      | Res.ok (cs, st) =>
        let cs := { cs with entity :=
          { markAsPopulated meta cs.entity with initialized := true } }
        match processOptimisticLock P meta cs (some res) st with
        | Res.err e a => Res.err e a
        | Res.ok (cs, st) => Res.ok ({ cs with persisted := true }, st)

/-- The update predicate built by `updateEntity` (lines 103-114): the bare
primary key when there is no version property or the entity's version value
is falsy, otherwise the primary-key condition plus a version equation. -/
def updateCond (meta : EntityMetadata) (cs : ChangeSet) : Cond :=
  match meta.versionProperty with
  | none => Cond.pkValue (primaryKeyVal meta cs.entity)
  | some vp =>
    if !(getV cs.entity.props vp).truthy then
      Cond.pkValue (primaryKeyVal meta cs.entity)
    else
      Cond.fields (getPrimaryKeyCond cs.entity meta.primaryKeys ++
        [(vp, getV cs.entity.props vp)])

/-- `updateEntity` (lines 103-114): issue the `nativeUpdate` call with the
predicate of `updateCond`; returns the driver's response and the state with
the call recorded. -/
def updateEntity (P : Persister) (meta : EntityMetadata) (cs : ChangeSet)
    (st : PState) : Except Nat QueryResult × PState :=
  let cond := updateCond meta cs
  let idx := st.trace.length
  (P.driver.nativeUpdate idx cs.name cond cs.payload,
   { st with trace := st.trace ++ [DriverCall.nativeUpdate cs.name cond cs.payload] })

/-- `persistManagedEntity` (lines 71-77): update, reconcile returned values,
run the lock reconciliation, mark persisted. -/
def persistManagedEntity (P : Persister) (cs : ChangeSet) (st : PState) :
    Res (ChangeSet × PState) :=
  match P.metadata.find cs.name with
  | none => Res.err PersistError.typeError (cs, st)
  | some meta =>
    match updateEntity P meta cs st with
    | (Except.error code, st) => Res.err (PersistError.driver code) (cs, st)
    | (Except.ok res, st) =>
      let cs := { cs with entity := mapReturnedValues cs.entity res meta }
      match processOptimisticLock P meta cs (some res) st with
      | Res.err e a => Res.err e a
      | Res.ok (cs, st) => Res.ok ({ cs with persisted := true }, st)

/-- The sequential `for (const changeSet of changeSets)` loop of
`executeInserts` (lines 20-22). -/
def insertLoop (P : Persister) :
    List ChangeSet → PState → Res (List ChangeSet × PState)
  | [], st => Res.ok ([], st)
  | cs :: rest, st =>
    match persistNewEntity P cs st with
    | Res.err e (cs', st') => Res.err e (cs' :: rest, st')
    | Res.ok (cs', st') =>
      match insertLoop P rest st' with
      | Res.ok (rest', st'') => Res.ok (cs' :: rest', st'')
      | Res.err e (rest', st'') => Res.err e (cs' :: rest', st'')

/-- The sequential loop of `executeUpdates` (lines 28-30). -/
def updateLoop (P : Persister) :
    List ChangeSet → PState → Res (List ChangeSet × PState)
  | [], st => Res.ok ([], st)
  | cs :: rest, st =>
    match persistManagedEntity P cs st with
    | Res.err e (cs', st') => Res.err e (cs' :: rest, st')
    | Res.ok (cs', st') =>
      match updateLoop P rest st' with
      | Res.ok (rest', st'') => Res.ok (cs' :: rest', st'')
      | Res.err e (rest', st'') => Res.err e (cs' :: rest', st'')

/-- `executeInserts` (lines 17-23): the upfront property-resolution pass over
every change set, then the sequential insert loop. -/
def executeInserts (P : Persister) (changeSets : List ChangeSet) (st : PState) :
    Res (List ChangeSet × PState) :=
  match processAll P changeSets st with
  | Res.err e a => Res.err e a
  | Res.ok (changeSets, st) => insertLoop P changeSets st

/-- `executeUpdates` (lines 25-31). -/
def executeUpdates (P : Persister) (changeSets : List ChangeSet) (st : PState) :
    Res (List ChangeSet × PState) :=
  match processAll P changeSets st with
  | Res.err e a => Res.err e a
  | Res.ok (changeSets, st) => updateLoop P changeSets st

/-- `executeDeletes` (lines 33-44): dereference the first change set
(a `TypeError` on an empty batch), build the one in-set predicate over
primary keys — tuples for composite-key types, scalars otherwise — and issue
exactly one `nativeDelete` call.  The first entity's `__meta` is the registry
entry for the change set's type name. -/
def executeDeletes (P : Persister) (changeSets : List ChangeSet) (st : PState) :
    Res (List ChangeSet × PState) :=
  match changeSets with
  | [] => Res.err PersistError.typeError ([], st)
  | cs0 :: _ =>
    match P.metadata.find cs0.name with
    | none => Res.err PersistError.typeError (changeSets, st)
    | some meta =>
      let pk := getPrimaryKeyHash meta.primaryKeys
      let cond :=
        if meta.compositePK then
          Cond.inComposite pk (changeSets.map (fun cs => primaryKeysList meta cs.entity))
        else
          Cond.inSimple pk (changeSets.map (fun cs => primaryKeyVal meta cs.entity))
      let idx := st.trace.length
      let st := { st with trace := st.trace ++ [DriverCall.nativeDelete cs0.name cond] }
      match P.driver.nativeDelete idx cs0.name cond with
      | Except.error code => Res.err (PersistError.driver code) (changeSets, st)
      | Except.ok _ => Res.ok (changeSets, st)

/-- The generated id after the primary-key property's custom scalar
conversion (the conversion `mapPrimaryKey` applies before assigning). -/
def insertIdVal (meta : EntityMetadata) (v : Val) : Val :=
  match findProp meta (meta.primaryKeys.headD "") with
  | some prop => applyCustomType prop v
  | none => v

/-- The decision `returnedValuesData` takes for a single property: the
returned value to copy, when the property has a mapped column whose returned
value is truthy and the entity holds no defined value for the property. -/
def rvdEntry (e : Entity) (row : Record) (prop : EntityProperty) : Option Val :=
  match prop.fieldNames with
  | f0 :: _ =>
    if (getV row f0).truthy && !(isDefinedStrict (getV e.props prop.name)) then
      some (getV row f0)
    else none
  | [] => none

/-! ## Concrete instances

Small concrete metadata objects, entities, drivers and persisters used to
evaluate the operations on closed inputs. -/

/-- An auto-increment style scalar primary-key property. -/
def propId : EntityProperty := ⟨"id", ["id"], true, none, none, none⟩

/-- A version property (store-owned counter). -/
def propVersion : EntityProperty := ⟨"version", ["version"], false, none, none, none⟩

/-- An ordinary nullable column. -/
def propFlag : EntityProperty := ⟨"flag", ["flag"], false, none, none, none⟩

/-- An unversioned entity type with a simple key. -/
def metaPlain : EntityMetadata := ⟨"User", [propId, propFlag], ["id"], false, none⟩

/-- A versioned entity type with a simple key. -/
def metaVer : EntityMetadata :=
  ⟨"User", [propId, propVersion], ["id"], false, some "version"⟩

/-- A primary-key property carrying a compute-on-create hook. -/
def propIdHook : EntityProperty :=
  ⟨"id", ["id"], true, none, some (fun _ => Val.num 99), none⟩

/-- An entity type whose primary key has a compute-on-create hook. -/
def metaHook : EntityMetadata := ⟨"User", [propIdHook], ["id"], false, none⟩

/-- An empty mutable context. -/
def stEmpty : PState := ⟨[], []⟩

/-- A context whose identifier map holds one unset cell for uuid `u1`. -/
def stCellU1 : PState := ⟨[], [("u1", none)]⟩

/-- A driver answering every call successfully with fixed values:
inserts yield id 42, the version lookup yields 1. -/
def drvHappy : Driver :=
  ⟨fun _ _ _ => Except.ok ⟨1, Val.num 42, none⟩,
   fun _ _ _ _ => Except.ok ⟨1, Val.undef, none⟩,
   fun _ _ _ => Except.ok ⟨1, Val.undef, none⟩,
   fun _ _ _ _ => Except.ok (some [("version", Val.num 1)])⟩

/-- A metadata registry binding only the name `User`. -/
def storeOf (meta : EntityMetadata) : MetadataStorage :=
  ⟨fun n => if n = "User" then some meta else none⟩

/-- Persister over `metaPlain` with the happy driver. -/
def PPlain : Persister := ⟨drvHappy, storeOf metaPlain⟩

/-- Persister over `metaVer` with the happy driver. -/
def PVer : Persister := ⟨drvHappy, storeOf metaVer⟩

/-- Persister over `metaHook` with the happy driver. -/
def PHook : Persister := ⟨drvHappy, storeOf metaHook⟩

/-- A driver whose inserts report generated id 42 but also return a row that
already carries 43 for the `id` column. -/
def drvRowId : Driver :=
  ⟨fun _ _ _ => Except.ok ⟨1, Val.num 42, some [("id", Val.num 43)]⟩,
   fun _ _ _ _ => Except.ok ⟨1, Val.undef, none⟩,
   fun _ _ _ => Except.ok ⟨1, Val.undef, none⟩,
   fun _ _ _ _ => Except.ok (some [("version", Val.num 1)])⟩

/-- Persister over `metaPlain` with the row-returning driver. -/
def PRowId : Persister := ⟨drvRowId, storeOf metaPlain⟩

/-- An entity with primary key 7 already set, uuid `u1`. -/
def entPk7 : Entity := ⟨[("id", Val.num 7)], "u1", false, false⟩

/-- An entity with no primary key, uuid `u1`. -/
def entNoPk : Entity := ⟨[], "u1", false, false⟩

/-- An UPDATE change set for an entity with id 7 and version 0. -/
def csVer0 : ChangeSet :=
  ⟨"User", ChangeSetType.update, [("flag", Val.num 3)],
   ⟨[("id", Val.num 7), ("version", Val.num 0)], "u1", true, true⟩, false⟩

/-- An UPDATE change set for an entity with id 7 and version 1. -/
def csVer1 : ChangeSet :=
  ⟨"User", ChangeSetType.update, [("flag", Val.num 3)],
   ⟨[("id", Val.num 7), ("version", Val.num 1)], "u1", true, true⟩, false⟩

/-- A DELETE change set for an entity with id 1. -/
def csDel1 : ChangeSet :=
  ⟨"User", ChangeSetType.delete, [], ⟨[("id", Val.num 1)], "u1", true, true⟩, false⟩

/-- A DELETE change set for an entity with id 2. -/
def csDel2 : ChangeSet :=
  ⟨"User", ChangeSetType.delete, [], ⟨[("id", Val.num 2)], "u2", true, true⟩, false⟩

/-- A driver whose updates report zero affected rows and no returned row. -/
def drvZero : Driver :=
  ⟨fun _ _ _ => Except.ok ⟨1, Val.num 42, none⟩,
   fun _ _ _ _ => Except.ok ⟨0, Val.undef, none⟩,
   fun _ _ _ => Except.ok ⟨1, Val.undef, none⟩,
   fun _ _ _ _ => Except.ok (some [("version", Val.num 1)])⟩

/-- Persister over `metaVer` with the zero-affected-rows driver. -/
def PVerZero : Persister := ⟨drvZero, storeOf metaVer⟩

/-- A driver whose updates report zero affected rows but return a row
carrying version 5. -/
def drvZeroRow : Driver :=
  ⟨fun _ _ _ => Except.ok ⟨1, Val.num 42, none⟩,
   fun _ _ _ _ => Except.ok ⟨0, Val.undef, some [("version", Val.num 5)]⟩,
   fun _ _ _ => Except.ok ⟨1, Val.undef, none⟩,
   fun _ _ _ _ => Except.ok (some [("version", Val.num 1)])⟩

/-- Persister over `metaVer` with the zero-rows-but-returning driver. -/
def PVerZeroRow : Persister := ⟨drvZeroRow, storeOf metaVer⟩

/-- An UPDATE change set whose entity has id 7 and no version value. -/
def csVerU : ChangeSet :=
  ⟨"User", ChangeSetType.update, [("flag", Val.num 3)],
   ⟨[("id", Val.num 7)], "u1", true, true⟩, false⟩

/-- A driver whose updates succeed with one affected row and whose version
lookup returns 2. -/
def drvUp2 : Driver :=
  ⟨fun _ _ _ => Except.ok ⟨1, Val.num 42, none⟩,
   fun _ _ _ _ => Except.ok ⟨1, Val.undef, none⟩,
   fun _ _ _ => Except.ok ⟨1, Val.undef, none⟩,
   fun _ _ _ _ => Except.ok (some [("version", Val.num 2)])⟩

/-- Persister over `metaVer` with the version-2 lookup driver. -/
def PVer2 : Persister := ⟨drvUp2, storeOf metaVer⟩

/-- The change set `persistManagedEntity PVer2 csVer1 stEmpty` produces. -/
def cs3out : ChangeSet :=
  ⟨"User", ChangeSetType.update, [("flag", Val.num 3)],
   ⟨[("id", Val.num 7), ("version", Val.num 2)], "u1", true, true⟩, true⟩

/-- The state `persistManagedEntity PVer2 csVer1 stEmpty` produces. -/
def st3out : PState :=
  ⟨[DriverCall.nativeUpdate "User"
      (Cond.fields [("id", Val.num 7), ("version", Val.num 1)]) [("flag", Val.num 3)],
    DriverCall.findOne "User" (Val.num 7) ["version"]], []⟩

/-- The error carried by a `Res`, if any. -/
def Res.errOf {α : Type} : Res α → Option PersistError
  | Res.ok _ => none
  | Res.err e _ => some e

/-- A driver whose inserts always fail with the opaque error code 7. -/
def drvFail : Driver :=
  ⟨fun _ _ _ => Except.error 7,
   fun _ _ _ _ => Except.ok ⟨1, Val.undef, none⟩,
   fun _ _ _ => Except.ok ⟨1, Val.undef, none⟩,
   fun _ _ _ _ => Except.ok (some [("version", Val.num 1)])⟩

/-- Persister over `metaPlain` with the failing-insert driver. -/
def PFail : Persister := ⟨drvFail, storeOf metaPlain⟩

/-- Persister over `metaHook` with the failing-insert driver. -/
def PFailHook : Persister := ⟨drvFail, storeOf metaHook⟩

/-- A context with unset identifier cells for uuids `u1` and `u2`. -/
def stCells2 : PState := ⟨[], [("u1", none), ("u2", none)]⟩

/-- A fresh CREATE change set for an empty entity with uuid `u1`. -/
def csNew1 : ChangeSet := ⟨"User", ChangeSetType.create, [], ⟨[], "u1", false, false⟩, false⟩

/-- A fresh CREATE change set for an empty entity with uuid `u2`. -/
def csNew2 : ChangeSet := ⟨"User", ChangeSetType.create, [], ⟨[], "u2", false, false⟩, false⟩

/-- A driver whose inserts report a `null` generated id. -/
def drvNullId : Driver :=
  ⟨fun _ _ _ => Except.ok ⟨1, Val.null, none⟩,
   fun _ _ _ _ => Except.ok ⟨1, Val.undef, none⟩,
   fun _ _ _ => Except.ok ⟨1, Val.undef, none⟩,
   fun _ _ _ _ => Except.ok (some [("version", Val.num 1)])⟩

/-- Persister over `metaPlain` with the null-generated-id driver. -/
def PNullId : Persister := ⟨drvNullId, storeOf metaPlain⟩

/-- The change set `executeInserts PVer [csNew1] stCellU1` produces. -/
def cs1out : ChangeSet :=
  ⟨"User", ChangeSetType.create, [],
   ⟨[("id", Val.num 42), ("version", Val.num 1)], "u1", true, true⟩, true⟩

/-- The state `executeInserts PVer [csNew1] stCellU1` produces. -/
def st1out : PState :=
  ⟨[DriverCall.nativeInsert "User" [],
    DriverCall.findOne "User" (Val.num 42) ["version"]],
   [("u1", some (Val.num 42))]⟩

/-! ## Record lemmas -/

theorem lookupV_setV_self (r : Record) (k : String) (v : Val) :
    lookupV (setV r k v) k = some v := by
  induction r with
  | nil => simp [setV, lookupV]
  | cons kv rest ih =>
    obtain ⟨k', v'⟩ := kv
    by_cases hk : k' = k
    · simp [setV, hk, lookupV]
    · simp only [setV, if_neg hk, lookupV, ih]

theorem lookupV_setV_ne (r : Record) (k k' : String) (v : Val) (h : k' ≠ k) :
    lookupV (setV r k v) k' = lookupV r k' := by
  induction r with
  | nil => simp [setV, lookupV, if_neg (Ne.symm h)]
  | cons kv rest ih =>
    obtain ⟨k0, v0⟩ := kv
    by_cases hk : k0 = k
    · subst hk
      simp [setV, lookupV, if_neg (Ne.symm h)]
    · simp only [setV, if_neg hk, lookupV, ih]

theorem getV_setV_self (r : Record) (k : String) (v : Val) :
    getV (setV r k v) k = v := by
  simp [getV, lookupV_setV_self]

theorem getV_setV_ne (r : Record) (k k' : String) (v : Val) (h : k' ≠ k) :
    getV (setV r k v) k' = getV r k' := by
  simp [getV, lookupV_setV_ne r k k' v h]

theorem lookupV_eq_none_iff (r : Record) (k : String) :
    lookupV r k = none ↔ k ∉ r.map Prod.fst := by
  induction r with
  | nil => simp [lookupV]
  | cons kv rest ih =>
    obtain ⟨k0, v0⟩ := kv
    by_cases hk : k0 = k
    · subst hk
      simp [lookupV]
    · simp only [lookupV, if_neg hk, ih, List.map_cons, List.mem_cons]
      constructor
      · intro hnot hor
        rcases hor with hor | hor
        · exact hk hor.symm
        · exact hnot hor
      · intro hnot hmem
        exact hnot (Or.inr hmem)

theorem keys_setV (r : Record) (k : String) (v : Val) :
    (setV r k v).map Prod.fst =
      if k ∈ r.map Prod.fst then r.map Prod.fst else r.map Prod.fst ++ [k] := by
  induction r with
  | nil => simp [setV]
  | cons kv rest ih =>
    obtain ⟨k0, v0⟩ := kv
    by_cases hk : k0 = k
    · subst hk
      simp [setV]
    · have hne : ¬(k = k0) := fun h => hk h.symm
      by_cases hmem : k ∈ rest.map Prod.fst
      · simp only [setV, if_neg hk, List.map_cons, ih, if_pos hmem, List.mem_cons]
        rw [if_pos (Or.inr hmem)]
      · simp only [setV, if_neg hk, List.map_cons, ih, if_neg hmem, List.mem_cons]
        have : ¬(k = k0 ∨ k ∈ rest.map Prod.fst) := by
          intro hor
          rcases hor with hor | hor
          · exact hne hor
          · exact hmem hor
        rw [if_neg this, List.cons_append]

theorem nodup_keys_setV (r : Record) (k : String) (v : Val)
    (h : (r.map Prod.fst).Nodup) : ((setV r k v).map Prod.fst).Nodup := by
  rw [keys_setV]
  by_cases hmem : k ∈ r.map Prod.fst
  · simpa [hmem] using h
  · simp only [hmem, if_false]
    refine List.Nodup.append h (List.nodup_singleton k) ?_
    intro a ha hb
    simp only [List.mem_singleton] at hb
    subst hb
    exact hmem ha

/-! ## Hydration and returned-value lemmas -/

theorem getV_hydrateProps_none (ps data : Record) (k : String)
    (h : lookupV data k = none) : getV (hydrateProps ps data) k = getV ps k := by
  induction data generalizing ps with
  | nil => rfl
  | cons kv rest ih =>
    obtain ⟨k0, v0⟩ := kv
    simp only [lookupV] at h
    by_cases hk : k0 = k
    · simp [hk] at h
    · simp only [if_neg hk] at h
      simp only [hydrateProps, ih _ h]
      exact getV_setV_ne ps k0 k v0 (fun hkk => hk hkk.symm)

theorem getV_hydrateProps_nodup (ps data : Record) (k : String)
    (h : (data.map Prod.fst).Nodup) :
    getV (hydrateProps ps data) k =
      match lookupV data k with
      | some v => v
      | none => getV ps k := by
  induction data generalizing ps with
  | nil => rfl
  | cons kv rest ih =>
    obtain ⟨k0, v0⟩ := kv
    simp only [List.map_cons, List.nodup_cons] at h
    obtain ⟨hk0, hrest⟩ := h
    by_cases hk : k0 = k
    · subst hk
      have hnone : lookupV rest k0 = none := (lookupV_eq_none_iff rest k0).mpr hk0
      simp only [hydrateProps, lookupV, if_pos rfl]
      rw [getV_hydrateProps_none _ _ _ hnone, getV_setV_self]
      simp
    · simp only [hydrateProps, lookupV, if_neg hk, ih _ hrest]
      cases hlk : lookupV rest k with
      | some v => simp
      | none => simp [getV_setV_ne ps k0 k v0 (fun hkk => hk hkk.symm)]

theorem returnedValuesData_cons (e : Entity) (row : Record) (data : Record)
    (prop : EntityProperty) (rest : List EntityProperty) :
    returnedValuesData e row data (prop :: rest) =
      returnedValuesData e row
        (match rvdEntry e row prop with
         | some v => setV data prop.name v
         | none => data) rest := by
  cases hf : prop.fieldNames with
  | nil => simp [returnedValuesData, rvdEntry, hf]
  | cons f0 fs =>
    by_cases hc : ((getV row f0).truthy && !(isDefinedStrict (getV e.props prop.name))) = true
    · simp [returnedValuesData, rvdEntry, hf, hc]
    · simp [returnedValuesData, rvdEntry, hf, hc]

theorem lookupV_returnedValuesData_defined (e : Entity) (row : Record)
    (k : String) (hdef : isDefinedStrict (getV e.props k) = true) :
    ∀ (props : List EntityProperty) (data : Record),
      lookupV (returnedValuesData e row data props) k = lookupV data k := by
  intro props
  induction props with
  | nil => intro data; rfl
  | cons prop rest ih =>
    intro data
    rw [returnedValuesData_cons]
    cases hrv : rvdEntry e row prop with
    | none => simp only [ih]
    | some v =>
      simp only [ih]
      by_cases hk : prop.name = k
      · subst hk
        simp only [rvdEntry] at hrv
        cases hf : prop.fieldNames with
        | nil => simp [hf] at hrv
        | cons f0 fs =>
          rw [hf, hdef] at hrv
          simp at hrv
      · exact lookupV_setV_ne data prop.name k v (fun hkk => hk hkk.symm)

theorem lookupV_returnedValuesData_notmem (e : Entity) (row : Record)
    (k : String) :
    ∀ (props : List EntityProperty) (data : Record),
      k ∉ props.map EntityProperty.name →
      lookupV (returnedValuesData e row data props) k = lookupV data k := by
  intro props
  induction props with
  | nil => intro data _; rfl
  | cons prop rest ih =>
    intro data hk
    simp only [List.map_cons, List.mem_cons] at hk
    push_neg at hk
    rw [returnedValuesData_cons]
    cases hrv : rvdEntry e row prop with
    | none => exact ih data hk.2
    | some v =>
      rw [ih _ hk.2]
      exact lookupV_setV_ne data prop.name k v hk.1

theorem lookupV_returnedValuesData_mem (e : Entity) (row : Record)
    (prop : EntityProperty) :
    ∀ (props : List EntityProperty) (data : Record),
      (props.map EntityProperty.name).Nodup → prop ∈ props →
      lookupV (returnedValuesData e row data props) prop.name =
        match rvdEntry e row prop with
        | some v => some v
        | none => lookupV data prop.name := by
  intro props
  induction props with
  | nil => intro data _ hmem; cases hmem
  | cons p0 rest ih =>
    intro data hnodup hmem
    simp only [List.map_cons, List.nodup_cons] at hnodup
    obtain ⟨hp0, hrest⟩ := hnodup
    rcases List.mem_cons.mp hmem with heq | hmem'
    · subst heq
      rw [returnedValuesData_cons]
      have hnot : prop.name ∉ rest.map EntityProperty.name := hp0
      cases hrv : rvdEntry e row prop with
      | none => rw [lookupV_returnedValuesData_notmem e row prop.name rest _ hnot]
      | some v =>
        rw [lookupV_returnedValuesData_notmem e row prop.name rest _ hnot,
          lookupV_setV_self]
    · rw [returnedValuesData_cons]
      have hne : p0.name ≠ prop.name := by
        intro hkk
        exact hp0 (hkk ▸ List.mem_map_of_mem EntityProperty.name hmem')
      cases hrv : rvdEntry e row p0 with
      | none => exact ih data hrest hmem'
      | some v =>
        rw [ih _ hrest hmem']
        cases hrv2 : rvdEntry e row prop with
        | some w => rfl
        | none => exact lookupV_setV_ne data p0.name prop.name v (Ne.symm hne)

theorem nodup_keys_returnedValuesData (e : Entity) (row : Record) :
    ∀ (props : List EntityProperty) (data : Record),
      (data.map Prod.fst).Nodup →
      ((returnedValuesData e row data props).map Prod.fst).Nodup := by
  intro props
  induction props with
  | nil => intro data h; exact h
  | cons prop rest ih =>
    intro data h
    rw [returnedValuesData_cons]
    cases hrv : rvdEntry e row prop with
    | none => exact ih data h
    | some v => exact ih _ (nodup_keys_setV data prop.name v h)

theorem mapReturnedValues_preserves_defined (e : Entity) (res : QueryResult)
    (meta : EntityMetadata) (k : String)
    (hdef : isDefinedStrict (getV e.props k) = true) :
    getV (mapReturnedValues e res meta).props k = getV e.props k := by
  unfold mapReturnedValues
  cases hrow : res.row with
  | none => rfl
  | some row =>
    by_cases hlen : row.length > 0
    · simp only [if_pos hlen, hydrate]
      have hnone : lookupV (returnedValuesData e row [] meta.properties) k = none := by
        rw [lookupV_returnedValuesData_defined e row k hdef]
        rfl
      exact getV_hydrateProps_none e.props _ k hnone
    · simp only [if_neg hlen]

theorem getV_mapReturnedValues_prop_none (e : Entity) (res : QueryResult)
    (meta : EntityMetadata) (prop : EntityProperty)
    (hnodup : (meta.properties.map EntityProperty.name).Nodup)
    (hmem : prop ∈ meta.properties)
    (hnone : ∀ row, res.row = some row → rvdEntry e row prop = none) :
    getV (mapReturnedValues e res meta).props prop.name =
      getV e.props prop.name := by
  unfold mapReturnedValues
  cases hrow : res.row with
  | none => rfl
  | some row =>
    by_cases hlen : row.length > 0
    · simp only [if_pos hlen]
      show getV (hydrateProps e.props _) prop.name = _
      have hkeys := nodup_keys_returnedValuesData e row meta.properties [] (by simp)
      rw [getV_hydrateProps_nodup _ _ _ hkeys,
        lookupV_returnedValuesData_mem e row prop meta.properties [] hnodup hmem,
        hnone row hrow]
      rfl
    · simp only [if_neg hlen]

theorem mapReturnedValues_flags (e : Entity) (res : QueryResult)
    (meta : EntityMetadata) :
    (mapReturnedValues e res meta).uuid = e.uuid ∧
    (mapReturnedValues e res meta).initialized = e.initialized ∧
    (mapReturnedValues e res meta).populatedFlag = e.populatedFlag := by
  unfold mapReturnedValues
  cases res.row with
  | none => exact ⟨rfl, rfl, rfl⟩
  | some row =>
    by_cases hlen : row.length > 0
    · simp [if_pos hlen, hydrate]
    · simp [if_neg hlen]

/-! ## Structural lemmas about the persister steps -/

theorem processOptimisticLock_ok_spec (P : Persister) (meta : EntityMetadata)
    (cs : ChangeSet) (res : Option QueryResult) (st : PState)
    (cs' : ChangeSet) (st' : PState)
    (h : processOptimisticLock P meta cs res st = Res.ok (cs', st')) :
    cs'.name = cs.name ∧ cs'.type = cs.type ∧ cs'.persisted = cs.persisted ∧
    cs'.payload = cs.payload ∧
    cs'.entity.uuid = cs.entity.uuid ∧
    cs'.entity.populatedFlag = cs.entity.populatedFlag ∧
    cs'.entity.initialized = cs.entity.initialized ∧
    st'.idMap = st.idMap ∧
    (meta.versionProperty = none → cs' = cs ∧ st' = st) ∧
    (∀ vp, meta.versionProperty = some vp →
      ∃ row,
        P.driver.findOne st.trace.length meta.name (primaryKeyVal meta cs.entity) [vp]
          = Except.ok (some row) ∧
        cs'.entity.props = setV cs.entity.props vp (getV row vp) ∧
        st'.trace = st.trace ++
          [DriverCall.findOne meta.name (primaryKeyVal meta cs.entity) [vp]]) := by
  unfold processOptimisticLock at h
  split at h
  · rename_i hv
    simp only [Res.ok.injEq, Prod.mk.injEq] at h
    obtain ⟨h1, h2⟩ := h
    subst h1
    subst h2
    refine ⟨rfl, rfl, rfl, rfl, rfl, rfl, rfl, rfl, fun _ => ⟨rfl, rfl⟩, ?_⟩
    intro vp hvp
    rw [hv] at hvp
    exact Option.noConfusion hvp
  · rename_i vp hv
    split at h
    · simp at h
    · simp only [] at h
      split at h
      · simp at h
      · simp at h
      · rename_i found heq
        simp only [Res.ok.injEq, Prod.mk.injEq] at h
        obtain ⟨h1, h2⟩ := h
        subst h1
        subst h2
        refine ⟨rfl, rfl, rfl, rfl, rfl, rfl, rfl, rfl, ?_, ?_⟩
        · intro hnone
          rw [hv] at hnone
          exact Option.noConfusion hnone
        · intro vp' hvp'
          rw [hv] at hvp'
          cases hvp'
          exact ⟨found, heq, rfl, rfl⟩

theorem lookupCell_setIdentValue_self (m : List (String × Option Val))
    (u : String) (v : Val) (h : (lookupCell m u).isSome = true) :
    lookupCell (setIdentValue m u v) u = some (some v) := by
  induction m with
  | nil => simp [lookupCell] at h
  | cons kv rest ih =>
    obtain ⟨k0, c0⟩ := kv
    by_cases hk : k0 = u
    · subst hk
      have hstep : setIdentValue ((k0, c0) :: rest) k0 v =
          (k0, some v) :: setIdentValue rest k0 v := by
        simp [setIdentValue]
      rw [hstep]
      simp [lookupCell]
    · have hstep : setIdentValue ((k0, c0) :: rest) u v =
          (k0, c0) :: setIdentValue rest u v := by
        simp [setIdentValue, hk]
      rw [hstep]
      simp only [lookupCell, if_neg hk] at h ⊢
      exact ih h

theorem findProp_spec (meta : EntityMetadata) (n : String)
    (prop : EntityProperty) (h : findProp meta n = some prop) :
    prop.name = n ∧ prop ∈ meta.properties := by
  refine ⟨?_, List.mem_of_find?_eq_some h⟩
  unfold findProp at h
  generalize meta.properties = l at h
  induction l with
  | nil => simp at h
  | cons p0 rest ih =>
    by_cases hp : p0.name = n
    · rw [List.find?_cons_of_pos _ (by simpa using hp)] at h
      cases h
      exact hp
    · rw [List.find?_cons_of_neg _ (by simpa using hp)] at h
      exact ih h

theorem processOptimisticLock_val_pk (P : Persister) (meta : EntityMetadata)
    (cs : ChangeSet) (res : Option QueryResult) (st : PState) (k : String)
    (hk : ∀ vp, meta.versionProperty = some vp → vp ≠ k) :
    getV (processOptimisticLock P meta cs res st).val.1.entity.props k =
      getV cs.entity.props k ∧
    (processOptimisticLock P meta cs res st).val.2.idMap = st.idMap := by
  unfold processOptimisticLock
  split
  · exact ⟨rfl, rfl⟩
  · rename_i vp hv
    split
    · exact ⟨rfl, rfl⟩
    · simp only []
      split
      · exact ⟨rfl, rfl⟩
      · exact ⟨rfl, rfl⟩
      · rename_i found heq
        constructor
        · show getV (setV cs.entity.props vp _) k = _
          exact getV_setV_ne _ _ _ _ (Ne.symm (hk vp hv))
        · rfl

theorem mapPrimaryKey_ok_spec (meta : EntityMetadata) (value : Val)
    (cs : ChangeSet) (st : PState) (cs' : ChangeSet) (st' : PState)
    (h : mapPrimaryKey meta value cs st = Res.ok (cs', st')) :
    ∃ prop, findProp meta (meta.primaryKeys.headD "") = some prop ∧
      cs' = { cs with entity :=
        if isDefinedStrict (primaryKeyVal meta cs.entity) then cs.entity
        else setPrimaryKey meta cs.entity (applyCustomType prop value) } ∧
      cs'.entity.uuid = cs.entity.uuid ∧
      st'.trace = st.trace ∧
      st'.idMap = setIdentValue st.idMap cs'.entity.uuid
        (getV cs'.entity.props prop.name) := by
  unfold mapPrimaryKey at h
  split at h
  · simp at h
  · rename_i prop hfind
    simp only [] at h
    split at h
    · simp at h
    · simp only [Res.ok.injEq, Prod.mk.injEq] at h
      obtain ⟨h1, h2⟩ := h
      subst h1
      subst h2
      refine ⟨prop, hfind, rfl, ?_, rfl, rfl⟩
      simp only []
      split <;> rfl

theorem persistNewEntity_ok_spec (P : Persister) (cs : ChangeSet) (st : PState)
    (cs' : ChangeSet) (st' : PState)
    (h : persistNewEntity P cs st = Res.ok (cs', st')) :
    cs'.name = cs.name ∧ cs'.type = cs.type ∧ cs'.persisted = true ∧
    cs'.entity.populatedFlag = true ∧ cs'.entity.initialized = true ∧
    cs'.entity.uuid = cs.entity.uuid := by
  unfold persistNewEntity at h
  split at h
  · simp at h
  · rename_i meta hm
    simp only [] at h
    split at h
    · simp at h
    · rename_i res hres
      by_cases hpk : isDefinedStrict (primaryKeyVal meta cs.entity) = true
      · simp only [hpk, Bool.not_true, Bool.false_eq_true, if_false] at h
        split at h
        · simp at h
        · rename_i csD stD heqD
          have hspec := processOptimisticLock_ok_spec P meta _ _ _ _ _ heqD
          simp only [Res.ok.injEq, Prod.mk.injEq] at h
          obtain ⟨h1, h2⟩ := h
          subst h1
          subst h2
          obtain ⟨fl1, fl2, fl3, fl4, fl5, fl6, fl7, _⟩ := hspec
          refine ⟨fl1, fl2, rfl, ?_, ?_, ?_⟩
          · rw [fl6]; rfl
          · rw [fl7]
          · rw [fl5]
            exact (mapReturnedValues_flags cs.entity res meta).1
      · simp only [eq_false_of_ne_true hpk, Bool.not_false, if_true] at h
        split at h
        · simp at h
        · rename_i csB stB heqB
          obtain ⟨prop, hfind, hcsB, huuidB, htrB, hidB⟩ :=
            mapPrimaryKey_ok_spec meta res.insertId _ _ _ _ heqB
          split at h
          · simp at h
          · rename_i csD stD heqD
            have hspec := processOptimisticLock_ok_spec P meta _ _ _ _ _ heqD
            simp only [Res.ok.injEq, Prod.mk.injEq] at h
            obtain ⟨h1, h2⟩ := h
            subst h1
            subst h2
            obtain ⟨fl1, fl2, fl3, fl4, fl5, fl6, fl7, _⟩ := hspec
            have hnameB : csB.name = cs.name := by rw [hcsB]
            have htypeB : csB.type = cs.type := by rw [hcsB]
            have huuid2 : csB.entity.uuid = cs.entity.uuid := by
              rw [huuidB]
              exact (mapReturnedValues_flags cs.entity res meta).1
            refine ⟨?_, ?_, rfl, ?_, ?_, ?_⟩
            · show csD.name = cs.name
              rw [fl1]
              exact hnameB
            · show csD.type = cs.type
              rw [fl2]
              exact htypeB
            · rw [fl6]; rfl
            · rw [fl7]
            · rw [fl5]
              exact huuid2

theorem persistManagedEntity_ok_spec (P : Persister) (cs : ChangeSet)
    (st : PState) (cs' : ChangeSet) (st' : PState)
    (h : persistManagedEntity P cs st = Res.ok (cs', st')) :
    cs'.name = cs.name ∧ cs'.type = cs.type ∧ cs'.persisted = true ∧
    cs'.entity.uuid = cs.entity.uuid := by
  unfold persistManagedEntity at h
  split at h
  · simp at h
  · rename_i meta hm
    split at h
    · simp at h
    · rename_i res stA hup
      simp only [] at h
      split at h
      · simp at h
      · rename_i pairD heqD
        obtain ⟨csD, stD⟩ := pairD
        have hspec := processOptimisticLock_ok_spec P meta _ _ _ _ _ heqD
        simp only [Res.ok.injEq, Prod.mk.injEq] at h
        obtain ⟨h1, h2⟩ := h
        subst h1
        subst h2
        obtain ⟨fl1, fl2, fl3, fl4, fl5, _⟩ := hspec
        refine ⟨fl1, fl2, rfl, ?_⟩
        rw [fl5]
        exact (mapReturnedValues_flags cs.entity res meta).1

theorem resolveIdentPayload_fields (cs : ChangeSet) (prop : EntityProperty)
    (st : PState) :
    (resolveIdentPayload cs prop st).name = cs.name ∧
    (resolveIdentPayload cs prop st).type = cs.type ∧
    (resolveIdentPayload cs prop st).persisted = cs.persisted ∧
    (resolveIdentPayload cs prop st).entity = cs.entity := by
  unfold resolveIdentPayload
  split <;> exact ⟨rfl, rfl, rfl, rfl⟩

theorem processProperty_ok_basic (meta : EntityMetadata) (cs : ChangeSet)
    (prop : EntityProperty) (st : PState) (cs' : ChangeSet) (st' : PState)
    (h : processProperty meta cs prop st = Res.ok (cs', st')) :
    cs'.name = cs.name ∧ cs'.type = cs.type ∧ cs'.persisted = cs.persisted ∧
    cs'.entity.uuid = cs.entity.uuid := by
  obtain ⟨rn, rt, rp, re⟩ := resolveIdentPayload_fields cs prop st
  unfold processProperty at h
  simp only [] at h
  split at h
  · simp at h
  · rename_i csM stM heqM
    have hM : csM.name = cs.name ∧ csM.type = cs.type ∧
        csM.persisted = cs.persisted ∧ csM.entity.uuid = cs.entity.uuid := by
      split at heqM
      · rename_i hook hcrt
        split at heqM
        · obtain ⟨p2, hfind, hcsM, huuid, htr, hid⟩ :=
            mapPrimaryKey_ok_spec meta _ _ _ _ _ heqM
          subst hcsM
          refine ⟨by simpa using rn, by simpa using rt, by simpa using rp, ?_⟩
          simp only []
          split <;> simp [setPrimaryKey, re]
        · simp only [Res.ok.injEq, Prod.mk.injEq] at heqM
          obtain ⟨h1, h2⟩ := heqM
          subst h1
          exact ⟨by simpa using rn, by simpa using rt, by simpa using rp,
            by simp [re]⟩
      all_goals
        simp only [Res.ok.injEq, Prod.mk.injEq] at heqM
        obtain ⟨h1, h2⟩ := heqM
        subst h1
        exact ⟨rn, rt, rp, by rw [re]⟩
    obtain ⟨m1, m2, m3, m4⟩ := hM
    split at h
    all_goals
      simp only [Res.ok.injEq, Prod.mk.injEq] at h
      obtain ⟨h1, h2⟩ := h
      subst h1
      exact ⟨by simpa using m1, by simpa using m2, by simpa using m3,
        by simpa using m4⟩

theorem processPropsList_ok_basic (meta : EntityMetadata) :
    ∀ (props : List EntityProperty) (cs : ChangeSet) (st : PState)
      (cs' : ChangeSet) (st' : PState),
      processPropsList meta props cs st = Res.ok (cs', st') →
      cs'.name = cs.name ∧ cs'.type = cs.type ∧ cs'.persisted = cs.persisted ∧
      cs'.entity.uuid = cs.entity.uuid := by
  intro props
  induction props with
  | nil =>
    intro cs st cs' st' h
    simp only [processPropsList, Res.ok.injEq, Prod.mk.injEq] at h
    obtain ⟨h1, h2⟩ := h
    subst h1
    exact ⟨rfl, rfl, rfl, rfl⟩
  | cons prop rest ih =>
    intro cs st cs' st' h
    unfold processPropsList at h
    split at h
    · simp at h
    · rename_i cs0 st0 heq
      obtain ⟨a1, a2, a3, a4⟩ := processProperty_ok_basic meta cs prop st cs0 st0 heq
      obtain ⟨b1, b2, b3, b4⟩ := ih cs0 st0 cs' st' h
      exact ⟨b1.trans a1, b2.trans a2, b3.trans a3, b4.trans a4⟩

theorem processProperties_ok_basic (P : Persister) (cs : ChangeSet) (st : PState)
    (cs' : ChangeSet) (st' : PState)
    (h : processProperties P cs st = Res.ok (cs', st')) :
    cs'.name = cs.name ∧ cs'.type = cs.type ∧ cs'.persisted = cs.persisted ∧
    cs'.entity.uuid = cs.entity.uuid := by
  unfold processProperties at h
  split at h
  · simp at h
  · rename_i meta hm
    exact processPropsList_ok_basic meta meta.properties cs st cs' st' h

theorem processAll_ok_mem (P : Persister) :
    ∀ (l : List ChangeSet) (st : PState) (l' : List ChangeSet) (st' : PState),
      processAll P l st = Res.ok (l', st') →
      ∀ cs' ∈ l', ∃ cs st₀ st₁, cs ∈ l ∧
        processProperties P cs st₀ = Res.ok (cs', st₁) := by
  intro l
  induction l with
  | nil =>
    intro st l' st' h cs' hmem
    simp only [processAll, Res.ok.injEq, Prod.mk.injEq] at h
    obtain ⟨h1, h2⟩ := h
    subst h1
    cases hmem
  | cons cs rest ih =>
    intro st l' st' h cs' hmem
    unfold processAll at h
    split at h
    · simp at h
    · rename_i cs0 st0 heq
      split at h
      · rename_i rest' st1 heq2
        simp only [Res.ok.injEq, Prod.mk.injEq] at h
        obtain ⟨h1, h2⟩ := h
        subst h1
        rcases List.mem_cons.mp hmem with hcs | hcs
        · subst hcs
          exact ⟨cs, st, st0, List.mem_cons_self cs rest, heq⟩
        · obtain ⟨c, s0, s1, hc, hrun⟩ := ih st0 rest' st1 heq2 cs' hcs
          exact ⟨c, s0, s1, List.mem_cons_of_mem cs hc, hrun⟩
      · simp at h

theorem insertLoop_ok_mem (P : Persister) :
    ∀ (l : List ChangeSet) (st : PState) (l' : List ChangeSet) (st' : PState),
      insertLoop P l st = Res.ok (l', st') →
      ∀ cs' ∈ l', ∃ cs st₀ st₁, cs ∈ l ∧
        persistNewEntity P cs st₀ = Res.ok (cs', st₁) := by
  intro l
  induction l with
  | nil =>
    intro st l' st' h cs' hmem
    simp only [insertLoop, Res.ok.injEq, Prod.mk.injEq] at h
    obtain ⟨h1, h2⟩ := h
    subst h1
    cases hmem
  | cons cs rest ih =>
    intro st l' st' h cs' hmem
    unfold insertLoop at h
    split at h
    · simp at h
    · rename_i cs0 st0 heq
      split at h
      · rename_i rest' st1 heq2
        simp only [Res.ok.injEq, Prod.mk.injEq] at h
        obtain ⟨h1, h2⟩ := h
        subst h1
        rcases List.mem_cons.mp hmem with hcs | hcs
        · subst hcs
          exact ⟨cs, st, st0, List.mem_cons_self cs rest, heq⟩
        · obtain ⟨c, s0, s1, hc, hrun⟩ := ih st0 rest' st1 heq2 cs' hcs
          exact ⟨c, s0, s1, List.mem_cons_of_mem cs hc, hrun⟩
      · simp at h

theorem updateLoop_ok_mem (P : Persister) :
    ∀ (l : List ChangeSet) (st : PState) (l' : List ChangeSet) (st' : PState),
      updateLoop P l st = Res.ok (l', st') →
      ∀ cs' ∈ l', ∃ cs st₀ st₁, cs ∈ l ∧
        persistManagedEntity P cs st₀ = Res.ok (cs', st₁) := by
  intro l
  induction l with
  | nil =>
    intro st l' st' h cs' hmem
    simp only [updateLoop, Res.ok.injEq, Prod.mk.injEq] at h
    obtain ⟨h1, h2⟩ := h
    subst h1
    cases hmem
  | cons cs rest ih =>
    intro st l' st' h cs' hmem
    unfold updateLoop at h
    split at h
    · simp at h
    · rename_i cs0 st0 heq
      split at h
      · rename_i rest' st1 heq2
        simp only [Res.ok.injEq, Prod.mk.injEq] at h
        obtain ⟨h1, h2⟩ := h
        subst h1
        rcases List.mem_cons.mp hmem with hcs | hcs
        · subst hcs
          exact ⟨cs, st, st0, List.mem_cons_self cs rest, heq⟩
        · obtain ⟨c, s0, s1, hc, hrun⟩ := ih st0 rest' st1 heq2 cs' hcs
          exact ⟨c, s0, s1, List.mem_cons_of_mem cs hc, hrun⟩
      · simp at h

theorem insertLoop_append_ok (P : Persister) :
    ∀ (l1 : List ChangeSet) (l2 : List ChangeSet) (st : PState)
      (l1' : List ChangeSet) (st1 : PState),
      insertLoop P l1 st = Res.ok (l1', st1) →
      insertLoop P (l1 ++ l2) st =
        match insertLoop P l2 st1 with
        | Res.ok (l2', st2) => Res.ok (l1' ++ l2', st2)
        | Res.err e (l2', st2) => Res.err e (l1' ++ l2', st2) := by
  intro l1
  induction l1 with
  | nil =>
    intro l2 st l1' st1 h
    simp only [insertLoop, Res.ok.injEq, Prod.mk.injEq] at h
    obtain ⟨h1, h2⟩ := h
    subst h1
    subst h2
    simp only [List.nil_append]
    cases hrun : insertLoop P l2 st with
    | ok a => obtain ⟨l2', st2⟩ := a; simp
    | err e a => obtain ⟨l2', st2⟩ := a; simp
  | cons cs rest ih =>
    intro l2 st l1' st1 h
    unfold insertLoop at h
    split at h
    · simp at h
    · rename_i cs0 st0 heq
      split at h
      · rename_i rest' st2 heq2
        simp only [Res.ok.injEq, Prod.mk.injEq] at h
        obtain ⟨h1, h2⟩ := h
        subst h1
        subst h2
        show insertLoop P (cs :: (rest ++ l2)) st = _
        conv_lhs => rw [insertLoop]
        rw [heq]
        simp only []
        rw [ih l2 st0 rest' st2 heq2]
        cases hrun : insertLoop P l2 st2 with
        | ok a => obtain ⟨l2', st3⟩ := a; simp
        | err e a => obtain ⟨l2', st3⟩ := a; simp
      · simp at h

theorem updateLoop_append_ok (P : Persister) :
    ∀ (l1 : List ChangeSet) (l2 : List ChangeSet) (st : PState)
      (l1' : List ChangeSet) (st1 : PState),
      updateLoop P l1 st = Res.ok (l1', st1) →
      updateLoop P (l1 ++ l2) st =
        match updateLoop P l2 st1 with
        | Res.ok (l2', st2) => Res.ok (l1' ++ l2', st2)
        | Res.err e (l2', st2) => Res.err e (l1' ++ l2', st2) := by
  intro l1
  induction l1 with
  | nil =>
    intro l2 st l1' st1 h
    simp only [updateLoop, Res.ok.injEq, Prod.mk.injEq] at h
    obtain ⟨h1, h2⟩ := h
    subst h1
    subst h2
    simp only [List.nil_append]
    cases hrun : updateLoop P l2 st with
    | ok a => obtain ⟨l2', st2⟩ := a; simp
    | err e a => obtain ⟨l2', st2⟩ := a; simp
  | cons cs rest ih =>
    intro l2 st l1' st1 h
    unfold updateLoop at h
    split at h
    · simp at h
    · rename_i cs0 st0 heq
      split at h
      · rename_i rest' st2 heq2
        simp only [Res.ok.injEq, Prod.mk.injEq] at h
        obtain ⟨h1, h2⟩ := h
        subst h1
        subst h2
        show updateLoop P (cs :: (rest ++ l2)) st = _
        conv_lhs => rw [updateLoop]
        rw [heq]
        simp only []
        rw [ih l2 st0 rest' st2 heq2]
        cases hrun : updateLoop P l2 st2 with
        | ok a => obtain ⟨l2', st3⟩ := a; simp
        | err e a => obtain ⟨l2', st3⟩ := a; simp
      · simp at h

theorem insertLoop_cons_err (P : Persister) (cs : ChangeSet)
    (rest : List ChangeSet) (st : PState) (e : PersistError) (cs0 : ChangeSet)
    (st0 : PState) (h : persistNewEntity P cs st = Res.err e (cs0, st0)) :
    insertLoop P (cs :: rest) st = Res.err e (cs0 :: rest, st0) := by
  unfold insertLoop
  rw [h]

theorem updateLoop_cons_err (P : Persister) (cs : ChangeSet)
    (rest : List ChangeSet) (st : PState) (e : PersistError) (cs0 : ChangeSet)
    (st0 : PState) (h : persistManagedEntity P cs st = Res.err e (cs0, st0)) :
    updateLoop P (cs :: rest) st = Res.err e (cs0 :: rest, st0) := by
  unfold updateLoop
  rw [h]

/-! ## The claims -/

/-- C10: a non-empty batch is an implicit precondition of `executeDeletes`.
Called with an empty change-set list it is not a no-op: it crashes
dereferencing the first change set's entity (a JavaScript `TypeError`, from
`changeSets[0].entity` on an empty array) before issuing any driver call,
leaving the trace and identifier map untouched. -/
theorem claim10_empty_delete_crashes (P : Persister) (st : PState) :
    executeDeletes P [] st = Res.err PersistError.typeError ([], st) := rfl

/-- C4: the predicate `updateEntity` hands to the driver's `nativeUpdate` is
exactly the entity's primary-key condition when the entity type has no
version property or the entity's current version value is falsy (including a
version value of 0), and is the primary-key condition conjoined with a
"version property equals the current version value" equation when the
version value is truthy; the call is recorded with exactly that predicate. -/
theorem claim4_update_predicate (P : Persister) (meta : EntityMetadata)
    (cs : ChangeSet) (st : PState) :
    (updateEntity P meta cs st).2.trace =
      st.trace ++ [DriverCall.nativeUpdate cs.name (updateCond meta cs) cs.payload] ∧
    (meta.versionProperty = none →
      updateCond meta cs = Cond.pkValue (primaryKeyVal meta cs.entity)) ∧
    (∀ vp, meta.versionProperty = some vp →
      (getV cs.entity.props vp).truthy = false →
      updateCond meta cs = Cond.pkValue (primaryKeyVal meta cs.entity)) ∧
    (∀ vp, meta.versionProperty = some vp →
      (getV cs.entity.props vp).truthy = true →
      updateCond meta cs = Cond.fields (getPrimaryKeyCond cs.entity meta.primaryKeys ++
        [(vp, getV cs.entity.props vp)])) := by
  refine ⟨rfl, ?_, ?_, ?_⟩
  · intro h
    simp [updateCond, h]
  · intro vp h hf
    simp [updateCond, h, hf]
  · intro vp h ht
    simp [updateCond, h, ht]

/-- Witness for C4: with a version property and version value 0 (falsy) the
predicate is the bare primary key, and with version value 1 it is the
primary-key condition plus the version equation. -/
theorem claim4_witness :
    updateCond metaVer csVer0 = Cond.pkValue (Val.num 7) ∧
    updateCond metaVer csVer1 =
      Cond.fields [("id", Val.num 7), ("version", Val.num 1)] := by
  constructor
  · have h := (claim4_update_predicate PVer metaVer csVer0 stEmpty).2.2.1
      "version" rfl (by decide)
    rw [h]
    decide
  · have h := (claim4_update_predicate PVer metaVer csVer1 stEmpty).2.2.2
      "version" rfl (by decide)
    rw [h]
    decide

/-- C5: for a non-empty DELETE batch, `executeDeletes` issues exactly one
`nativeDelete` call whose predicate is the in-set condition over the primary
key — tuples of key values in change-set order for composite-key types,
scalar key values otherwise — and performs no property resolution, lock
check, or per-row reconciliation: the change sets and the identifier map are
returned untouched and the trace grows by exactly that one call. -/
theorem claim5_delete_batched (P : Persister) (cs0 : ChangeSet)
    (rest : List ChangeSet) (st : PState) (meta : EntityMetadata)
    (hm : P.metadata.find cs0.name = some meta) :
    (executeDeletes P (cs0 :: rest) st).val.1 = cs0 :: rest ∧
    (executeDeletes P (cs0 :: rest) st).val.2.idMap = st.idMap ∧
    (executeDeletes P (cs0 :: rest) st).val.2.trace =
      st.trace ++ [DriverCall.nativeDelete cs0.name
        (if meta.compositePK then
          Cond.inComposite (getPrimaryKeyHash meta.primaryKeys)
            ((cs0 :: rest).map (fun cs => primaryKeysList meta cs.entity))
        else
          Cond.inSimple (getPrimaryKeyHash meta.primaryKeys)
            ((cs0 :: rest).map (fun cs => primaryKeyVal meta cs.entity)))] := by
  unfold executeDeletes
  simp only []
  rw [hm]
  simp only []
  split <;> exact ⟨rfl, rfl, rfl⟩

/-- Witness for C5: deleting `[User 1, User 2]` issues exactly one driver
call with the in-set predicate over `[1, 2]`, leaving both change sets
untouched. -/
theorem claim5_witness :
    (executeDeletes PPlain [csDel1, csDel2] stEmpty).val.1 = [csDel1, csDel2] ∧
    (executeDeletes PPlain [csDel1, csDel2] stEmpty).val.2.trace =
      [DriverCall.nativeDelete "User"
        (Cond.inSimple "id" [Val.num 1, Val.num 2])] := by
  have h := claim5_delete_batched PPlain csDel1 [csDel2] stEmpty metaPlain rfl
  refine ⟨h.1, ?_⟩
  rw [h.2.2]
  decide

/-- C9 (amended): the two cited mechanisms never change a defined value —
`mapPrimaryKey` leaves the entity untouched when the primary key is already
defined (the generated id is assigned only to an undefined key), and
returned-value reconciliation never modifies any property the entity already
holds a defined value for.  (The claim's stronger "no ChangeSetPersister
operation ever changes a defined primary key" fails: a compute-on-create hook
on the key property overwrites it, see the counterexample.) -/
theorem claim9_pk_immutable (meta : EntityMetadata) (v : Val) (cs : ChangeSet)
    (st : PState) (e : Entity) (res : QueryResult) (k : String) :
    (isDefinedStrict (primaryKeyVal meta cs.entity) = true →
      (mapPrimaryKey meta v cs st).val.1.entity = cs.entity) ∧
    (isDefinedStrict (getV e.props k) = true →
      getV (mapReturnedValues e res meta).props k = getV e.props k) := by
  constructor
  · intro hdef
    unfold mapPrimaryKey
    split
    · rfl
    · simp only [hdef, if_true]
      split <;> rfl
  · exact mapReturnedValues_preserves_defined e res meta k

/-- Witness for C9: a defined key 7 survives `mapPrimaryKey` with generated
id 9, and a returned row carrying id 9 does not overwrite the defined id 7. -/
theorem claim9_witness :
    (mapPrimaryKey metaPlain (Val.num 9)
      ⟨"User", ChangeSetType.create, [], entPk7, false⟩ stCellU1).val.1.entity
      = entPk7 ∧
    getV (mapReturnedValues entPk7 ⟨1, Val.num 9, some [("id", Val.num 9)]⟩
      metaPlain).props "id" = Val.num 7 := by
  constructor
  · exact (claim9_pk_immutable metaPlain (Val.num 9)
      ⟨"User", ChangeSetType.create, [], entPk7, false⟩ stCellU1 entPk7
      ⟨1, Val.num 9, some [("id", Val.num 9)]⟩ "id").1 (by decide)
  · have h := (claim9_pk_immutable metaPlain (Val.num 9)
      ⟨"User", ChangeSetType.create, [], entPk7, false⟩ stCellU1 entPk7
      ⟨1, Val.num 9, some [("id", Val.num 9)]⟩ "id").2 (by decide)
    rw [h]
    decide

/-- Counterexample for C9 as stated: `executeInserts` — a ChangeSetPersister
operation — changes an already-defined primary key when the key property has
a compute-on-create hook.  The entity starts with the defined key 7; the call
returns successfully and the key has become 99. -/
theorem claim9_counterexample :
    isDefinedStrict (primaryKeyVal metaHook entPk7) = true ∧
    getV entPk7.props "id" = Val.num 7 ∧
    (executeInserts PHook
      [⟨"User", ChangeSetType.create, [], entPk7, false⟩] stCellU1).isOk = true ∧
    getV ((executeInserts PHook
      [⟨"User", ChangeSetType.create, [], entPk7, false⟩] stCellU1).val.1.headD
        ⟨"User", ChangeSetType.create, [], entPk7, false⟩).entity.props "id"
      = Val.num 99 ∧
    (Val.num 99 : Val) ≠ Val.num 7 := by
  refine ⟨by decide, by decide, ?_, ?_, by decide⟩
  · rfl
  · rfl

/-- C6 (amended): whenever a driver result carries a non-empty returned row,
the returned column's value is copied into the entity (through the hydrator's
value-hydration path) if and only if the property has a mapped column, the
row's value for that column is truthy, and the entity does not already hold a
defined value for the property (property names assumed distinct).  In
particular a property the entity already holds a defined value for is never
overwritten.  (The claim's plain "iff the entity holds no defined value"
fails for falsy returned values, see the counterexample.) -/
theorem claim6_returned_values (e : Entity) (res : QueryResult)
    (meta : EntityMetadata) (row : Record) (prop : EntityProperty)
    (hrow : res.row = some row) (hne : 0 < row.length)
    (hnodup : (meta.properties.map EntityProperty.name).Nodup)
    (hmem : prop ∈ meta.properties) :
    getV (mapReturnedValues e res meta).props prop.name =
      match prop.fieldNames with
      | f0 :: _ =>
        if (getV row f0).truthy && !(isDefinedStrict (getV e.props prop.name))
        then getV row f0
        else getV e.props prop.name
      | [] => getV e.props prop.name := by
  unfold mapReturnedValues
  rw [hrow]
  simp only [if_pos hne]
  have hkeys : ((returnedValuesData e row [] meta.properties).map Prod.fst).Nodup :=
    nodup_keys_returnedValuesData e row meta.properties [] (by simp)
  show getV (hydrateProps e.props _) prop.name = _
  rw [getV_hydrateProps_nodup _ _ _ hkeys]
  rw [lookupV_returnedValuesData_mem e row prop meta.properties [] hnodup hmem]
  cases hf : prop.fieldNames with
  | nil => simp [rvdEntry, hf, lookupV]
  | cons f0 fs =>
    by_cases hc : ((getV row f0).truthy && !(isDefinedStrict (getV e.props prop.name))) = true
    · simp [rvdEntry, hf, hc, lookupV]
    · simp [rvdEntry, hf, hc, lookupV]

/-- Witness for C6: a truthy returned value 5 for the undefined property
`flag` is copied into the entity. -/
theorem claim6_witness :
    getV (mapReturnedValues entPk7 ⟨1, Val.undef, some [("flag", Val.num 5)]⟩
      metaPlain).props "flag" = Val.num 5 := by
  have hmem : propFlag ∈ metaPlain.properties :=
    List.mem_cons_of_mem propId (List.mem_cons_self propFlag [])
  have h := claim6_returned_values entPk7 ⟨1, Val.undef, some [("flag", Val.num 5)]⟩
    metaPlain [("flag", Val.num 5)] propFlag rfl (by decide) (by decide) hmem
  rw [show propFlag.name = "flag" from rfl] at h
  rw [h]
  decide

/-- Counterexample for C6 as stated: the returned row carries the value 0 for
the column of property `flag`, the entity holds no defined value for `flag`,
yet nothing is copied — the source additionally requires the returned value
to be truthy, and 0 is falsy. -/
theorem claim6_counterexample :
    isDefinedStrict (getV entNoPk.props "flag") = false ∧
    getV [("flag", Val.num 0)] "flag" = Val.num 0 ∧
    getV (mapReturnedValues entNoPk ⟨1, Val.undef, some [("flag", Val.num 0)]⟩
      metaPlain).props "flag" = Val.undef ∧
    (Val.undef : Val) ≠ Val.num 0 := by decide

/-- C7 (amended): for a CREATE change set whose entity's primary key is not
already set, provided the driver's returned row does not itself supply a
truthy value for the primary-key column, `persistNewEntity` assigns the
entity's primary key from the driver's generated insert id with the key
property's custom scalar conversion applied, and propagates that resolved
value into the entity's identifier-map cell via `setValue` — this holds
whether or not the rest of the flow succeeds.  (Without the returned-row
proviso the claim fails: a returned row that carries the key column wins over
the generated id, see the counterexample.) -/
theorem claim7_generated_key (P : Persister) (cs : ChangeSet) (st : PState)
    (meta : EntityMetadata) (prop : EntityProperty) (res : QueryResult)
    (hm : P.metadata.find cs.name = some meta)
    (hfind : findProp meta (meta.primaryKeys.headD "") = some prop)
    (hnodup : (meta.properties.map EntityProperty.name).Nodup)
    (hnotset : isDefinedStrict (primaryKeyVal meta cs.entity) = false)
    (hres : P.driver.nativeInsert st.trace.length cs.name cs.payload = Except.ok res)
    (hrowpk : ∀ row f0, res.row = some row → prop.fieldNames.head? = some f0 →
      (getV row f0).truthy = false)
    (hcell : (lookupCell st.idMap cs.entity.uuid).isSome = true)
    (hvp : ∀ vp, meta.versionProperty = some vp → vp ≠ meta.primaryKeys.headD "") :
    getV (persistNewEntity P cs st).val.1.entity.props (meta.primaryKeys.headD "")
      = applyCustomType prop res.insertId ∧
    lookupCell (persistNewEntity P cs st).val.2.idMap cs.entity.uuid
      = some (some (applyCustomType prop res.insertId)) := by
  obtain ⟨hpname, hpmem⟩ := findProp_spec meta _ prop hfind
  have huuid := (mapReturnedValues_flags cs.entity res meta).1
  have hrvnone : ∀ row, res.row = some row → rvdEntry cs.entity row prop = none := by
    intro row hr
    unfold rvdEntry
    cases hf : prop.fieldNames with
    | nil => rfl
    | cons f0 fs =>
      have ht := hrowpk row f0 hr (by rw [hf]; rfl)
      simp [ht]
  have hpkA : getV (mapReturnedValues cs.entity res meta).props
      (meta.primaryKeys.headD "") = getV cs.entity.props (meta.primaryKeys.headD "") := by
    have h2 := getV_mapReturnedValues_prop_none cs.entity res meta prop hnodup hpmem hrvnone
    rw [hpname] at h2
    exact h2
  have hpkAfalse : isDefinedStrict (primaryKeyVal meta
      (mapReturnedValues cs.entity res meta)) = false := by
    show isDefinedStrict (getV (mapReturnedValues cs.entity res meta).props _) = false
    rw [hpkA]
    exact hnotset
  have hassign : getV (setPrimaryKey meta (mapReturnedValues cs.entity res meta)
      (applyCustomType prop res.insertId)).props prop.name
      = applyCustomType prop res.insertId := by
    rw [hpname]
    exact getV_setV_self _ _ _
  have hmpk : mapPrimaryKey meta res.insertId
      { cs with entity := mapReturnedValues cs.entity res meta }
      { trace := st.trace ++ [DriverCall.nativeInsert cs.name cs.payload],
        idMap := st.idMap }
      = Res.ok
        ({ cs with entity := setPrimaryKey meta (mapReturnedValues cs.entity res meta) (applyCustomType prop res.insertId) },
         { trace := st.trace ++ [DriverCall.nativeInsert cs.name cs.payload],
           idMap := setIdentValue st.idMap cs.entity.uuid (applyCustomType prop res.insertId) }) := by
    unfold mapPrimaryKey
    rw [hfind]
    simp only []
    rw [show isDefinedStrict (primaryKeyVal meta
      ({ cs with entity := mapReturnedValues cs.entity res meta } : ChangeSet).entity) = false
      from hpkAfalse]
    simp only [Bool.false_eq_true, if_false]
    rw [show (setPrimaryKey meta (mapReturnedValues cs.entity res meta)
      (applyCustomType prop res.insertId)).uuid = cs.entity.uuid from huuid]
    cases hsome : lookupCell st.idMap cs.entity.uuid with
    | none =>
      rw [hsome] at hcell
      simp at hcell
    | some c =>
      simp only []
      rw [hassign]
  unfold persistNewEntity
  rw [hm]
  simp only []
  rw [hres]
  simp only []
  rw [hnotset]
  simp only [Bool.not_false, if_true]
  rw [hmpk]
  simp only []
  have hlockv := processOptimisticLock_val_pk P meta
    ({ cs with entity := { markAsPopulated meta (setPrimaryKey meta (mapReturnedValues cs.entity res meta) (applyCustomType prop res.insertId)) with initialized := true } } : ChangeSet)
    (some res)
    ({ trace := st.trace ++ [DriverCall.nativeInsert cs.name cs.payload],
       idMap := setIdentValue st.idMap cs.entity.uuid (applyCustomType prop res.insertId) } : PState)
    (meta.primaryKeys.headD "") hvp
  have hassignPk : getV (setPrimaryKey meta (mapReturnedValues cs.entity res meta)
      (applyCustomType prop res.insertId)).props (meta.primaryKeys.headD "")
      = applyCustomType prop res.insertId := by
    rw [← hpname]
    exact hassign
  generalize hlock : processOptimisticLock P meta _ (some res) _ = lockRes at hlockv ⊢
  cases lockRes with
  | ok b =>
    obtain ⟨b1, b2⟩ := b
    simp only [Res.val] at hlockv ⊢
    refine ⟨?_, ?_⟩
    · rw [hlockv.1]
      exact hassignPk
    · rw [hlockv.2]
      rw [lookupCell_setIdentValue_self st.idMap cs.entity.uuid _ hcell]
  | err e b =>
    obtain ⟨b1, b2⟩ := b
    simp only [Res.val] at hlockv ⊢
    refine ⟨?_, ?_⟩
    · rw [hlockv.1]
      exact hassignPk
    · rw [hlockv.2]
      rw [lookupCell_setIdentValue_self st.idMap cs.entity.uuid _ hcell]

/-- Witness for C7: inserting an entity with no key set, where the driver
reports generated id 42 and no returned row, assigns 42 to the entity's key
and stores 42 in the identifier-map cell for its uuid. -/
theorem claim7_witness :
    getV (persistNewEntity PPlain
      ⟨"User", ChangeSetType.create, [], entNoPk, false⟩ stCellU1).val.1.entity.props "id"
      = Val.num 42 ∧
    lookupCell (persistNewEntity PPlain
      ⟨"User", ChangeSetType.create, [], entNoPk, false⟩ stCellU1).val.2.idMap "u1"
      = some (some (Val.num 42)) := by
  have h := claim7_generated_key PPlain
    ⟨"User", ChangeSetType.create, [], entNoPk, false⟩ stCellU1 metaPlain propId
    ⟨1, Val.num 42, none⟩ rfl rfl (by decide) (by decide) rfl
    (by intro row f0 hr hf; exact Option.noConfusion hr) (by decide)
    (by intro vp hv; exact Option.noConfusion hv)
  exact ⟨h.1, h.2⟩

/-- Counterexample for C7 as stated: the driver reports generated id 42 but
its returned row already carries 43 for the key column; the key is taken from
the returned row, not from the generated insert id. -/
theorem claim7_counterexample :
    isDefinedStrict (primaryKeyVal metaPlain entNoPk) = false ∧
    (executeInserts PRowId
      [⟨"User", ChangeSetType.create, [], entNoPk, false⟩] stCellU1).isOk = true ∧
    getV ((executeInserts PRowId
      [⟨"User", ChangeSetType.create, [], entNoPk, false⟩] stCellU1).val.1.headD
        ⟨"User", ChangeSetType.create, [], entNoPk, false⟩).entity.props "id"
      = Val.num 43 ∧
    (Val.num 43 : Val) ≠ Val.num 42 := by
  refine ⟨by decide, ?_, ?_, by decide⟩
  · rfl
  · rfl

/-- C2 (amended): for an UPDATE batch on a versioned entity type, when the
driver reports zero affected rows for the k-th (property-resolved) change
set, `executeUpdates` fails with an `OptimisticLockError` identifying that
change set's entity; the k-th change set's persisted flag stays false, no
driver call is issued for any later change set (the final trace ends with
the k-th update call), the later change sets are returned as they were, and —
provided the entity already held a defined version value — its version
property is left unchanged.  (Without the defined-version proviso the claim
fails: a returned row on the failed update can fill in a previously-undefined
version before the error is thrown, see the counterexample.) -/
theorem claim2_optimistic_lock (P : Persister) (batch : List ChangeSet)
    (st : PState) (batchP : List ChangeSet) (st0 : PState)
    (pre : List ChangeSet) (csk : ChangeSet) (post : List ChangeSet)
    (pre' : List ChangeSet) (st1 : PState) (meta : EntityMetadata)
    (vp : String) (res : QueryResult)
    (hm : P.metadata.find csk.name = some meta)
    (hv : meta.versionProperty = some vp)
    (htype : csk.type = ChangeSetType.update)
    (hpersisted : csk.persisted = false)
    (hdefined : isDefinedStrict (getV csk.entity.props vp) = true)
    (hproc : processAll P batch st = Res.ok (batchP, st0))
    (hsplit : batchP = pre ++ csk :: post)
    (hpre : updateLoop P pre st0 = Res.ok (pre', st1))
    (hres : P.driver.nativeUpdate st1.trace.length csk.name (updateCond meta csk)
      csk.payload = Except.ok res)
    (h0 : res.affectedRows = 0) :
    executeUpdates P batch st =
      Res.err (PersistError.lockFailed csk.entity.uuid)
        (pre' ++ { csk with entity := mapReturnedValues csk.entity res meta } :: post,
         { st1 with trace := st1.trace ++
           [DriverCall.nativeUpdate csk.name (updateCond meta csk) csk.payload] }) ∧
    getV (mapReturnedValues csk.entity res meta).props vp = getV csk.entity.props vp ∧
    ({ csk with entity := mapReturnedValues csk.entity res meta } : ChangeSet).persisted
      = false := by
  have hflags := mapReturnedValues_flags csk.entity res meta
  have hup : updateEntity P meta csk st1 =
      (Except.ok res,
       { st1 with trace := st1.trace ++
         [DriverCall.nativeUpdate csk.name (updateCond meta csk) csk.payload] }) := by
    unfold updateEntity
    simp only []
    rw [hres]
  have hlockeq : processOptimisticLock P meta
      ({ csk with entity := mapReturnedValues csk.entity res meta }) (some res)
      ({ st1 with trace := st1.trace ++
        [DriverCall.nativeUpdate csk.name (updateCond meta csk) csk.payload] })
      = Res.err (PersistError.lockFailed csk.entity.uuid)
        ({ csk with entity := mapReturnedValues csk.entity res meta },
         { st1 with trace := st1.trace ++
           [DriverCall.nativeUpdate csk.name (updateCond meta csk) csk.payload] }) := by
    unfold processOptimisticLock
    rw [hv]
    simp only []
    rw [if_pos (by simp [htype, h0])]
    rw [hflags.1]
  have hpme : persistManagedEntity P csk st1 =
      Res.err (PersistError.lockFailed csk.entity.uuid)
        ({ csk with entity := mapReturnedValues csk.entity res meta },
         { st1 with trace := st1.trace ++
           [DriverCall.nativeUpdate csk.name (updateCond meta csk) csk.payload] }) := by
    unfold persistManagedEntity
    rw [hm]
    simp only []
    rw [hup]
    simp only []
    rw [hlockeq]
  refine ⟨?_, mapReturnedValues_preserves_defined csk.entity res meta vp hdefined,
    hpersisted⟩
  unfold executeUpdates
  rw [hproc]
  simp only []
  rw [hsplit]
  rw [updateLoop_append_ok P pre (csk :: post) st0 pre' st1 hpre]
  rw [updateLoop_cons_err P csk post st1 _ _ _ hpme]

/-- Witness for C2: a one-element UPDATE batch on a versioned type, with the
driver reporting zero affected rows, fails with `OptimisticLockError`
identifying the entity `u1`; exactly one driver call was issued and the
entity's version value 1 is untouched. -/
theorem claim2_witness :
    executeUpdates PVerZero [csVer1] stEmpty =
      Res.err (PersistError.lockFailed "u1")
        ([{ csVer1 with entity :=
            mapReturnedValues csVer1.entity ⟨0, Val.undef, none⟩ metaVer }],
         ⟨[DriverCall.nativeUpdate "User"
             (Cond.fields [("id", Val.num 7), ("version", Val.num 1)])
             [("flag", Val.num 3)]], []⟩) ∧
    getV (mapReturnedValues csVer1.entity ⟨0, Val.undef, none⟩ metaVer).props
      "version" = Val.num 1 := by
  have h := claim2_optimistic_lock PVerZero [csVer1] stEmpty [csVer1] stEmpty
    [] csVer1 [] [] stEmpty metaVer "version" ⟨0, Val.undef, none⟩
    rfl rfl rfl rfl (by decide) rfl rfl rfl rfl rfl
  constructor
  · rw [h.1]
    decide
  · rw [h.2.1]
    decide

/-- Counterexample for C2 as stated: the entity's version property was
undefined; on a zero-affected-rows update whose result carries a returned
row with version 5, the call still fails with `OptimisticLockError`, but the
entity's version property has been changed (filled in from the returned row)
before the error was thrown. -/
theorem claim2_counterexample :
    isDefinedStrict (getV csVerU.entity.props "version") = false ∧
    (executeUpdates PVerZeroRow [csVerU] stEmpty).errOf
      = some (PersistError.lockFailed "u1") ∧
    getV ((executeUpdates PVerZeroRow [csVerU] stEmpty).val.1.headD csVerU).entity.props
      "version" = Val.num 5 ∧
    (Val.num 5 : Val) ≠ Val.undef := by decide

theorem processOptimisticLock_refresh (P : Persister) (meta : EntityMetadata)
    (cs2 : ChangeSet) (res2 : Option QueryResult) (stA : PState)
    (csD : ChangeSet) (stD : PState) (vp : String)
    (hv : meta.versionProperty = some vp)
    (hvpk : vp ≠ meta.primaryKeys.headD "")
    (heqD : processOptimisticLock P meta cs2 res2 stA = Res.ok (csD, stD)) :
    ∃ i row,
      P.driver.findOne i meta.name (primaryKeyVal meta csD.entity) [vp]
        = Except.ok (some row) ∧
      DriverCall.findOne meta.name (primaryKeyVal meta csD.entity) [vp] ∈ stD.trace ∧
      getV csD.entity.props vp = getV row vp := by
  obtain ⟨-, -, -, -, -, -, -, -, -, hsome⟩ :=
    processOptimisticLock_ok_spec P meta cs2 res2 stA csD stD heqD
  obtain ⟨row, hfind, hprops, htrace⟩ := hsome vp hv
  have hpk : primaryKeyVal meta csD.entity = primaryKeyVal meta cs2.entity := by
    show getV csD.entity.props _ = getV cs2.entity.props _
    rw [hprops]
    exact getV_setV_ne _ _ _ _ (Ne.symm hvpk)
  refine ⟨stA.trace.length, row, ?_, ?_, ?_⟩
  · rw [hpk]
    exact hfind
  · rw [hpk, htrace]
    exact List.mem_append_right _ (List.mem_singleton_self _)
  · rw [hprops]
    exact getV_setV_self _ _ _

/-- C3: for every change set of a versioned entity type that is a CREATE, or
an UPDATE whose driver call reported a nonzero affected-row count (both
implied by the step returning successfully — a zero-row update fails
instead), a follow-up point lookup restricted to the version property's
column was issued for the entity's primary key, and afterwards the entity's
version property equals the value returned by that lookup (whatever value
was sent in the write). -/
theorem claim3_version_refresh (P : Persister) (cs : ChangeSet) (st : PState)
    (meta : EntityMetadata) (vp : String) (cs' : ChangeSet) (st' : PState)
    (hm : P.metadata.find cs.name = some meta)
    (hv : meta.versionProperty = some vp)
    (hvpk : vp ≠ meta.primaryKeys.headD "")
    (hrun : (cs.type = ChangeSetType.create ∧
        persistNewEntity P cs st = Res.ok (cs', st')) ∨
      (cs.type = ChangeSetType.update ∧
        persistManagedEntity P cs st = Res.ok (cs', st'))) :
    ∃ i row,
      P.driver.findOne i meta.name (primaryKeyVal meta cs'.entity) [vp]
        = Except.ok (some row) ∧
      DriverCall.findOne meta.name (primaryKeyVal meta cs'.entity) [vp] ∈ st'.trace ∧
      getV cs'.entity.props vp = getV row vp := by
  rcases hrun with ⟨-, h⟩ | ⟨-, h⟩
  · unfold persistNewEntity at h
    rw [hm] at h
    simp only [] at h
    split at h
    · simp at h
    · rename_i res hres
      split at h
      · simp at h
      · rename_i csB stB heqB
        split at h
        · simp at h
        · rename_i csD stD heqD
          simp only [Res.ok.injEq, Prod.mk.injEq] at h
          obtain ⟨h1, h2⟩ := h
          subst h1
          subst h2
          exact processOptimisticLock_refresh P meta _ (some res) stB csD stD vp
            hv hvpk heqD
  · unfold persistManagedEntity at h
    rw [hm] at h
    simp only [] at h
    split at h
    · simp at h
    · rename_i res stA hup
      split at h
      · simp at h
      · rename_i csD stD heqD
        simp only [Res.ok.injEq, Prod.mk.injEq] at h
        obtain ⟨h1, h2⟩ := h
        subst h1
        subst h2
        exact processOptimisticLock_refresh P meta _ (some res) stA csD stD vp
          hv hvpk heqD

theorem persistNewEntity_ok_full (P : Persister) (cs : ChangeSet) (st : PState)
    (cs' : ChangeSet) (st' : PState) (meta : EntityMetadata)
    (hm : P.metadata.find cs.name = some meta)
    (hvp : ∀ vp, meta.versionProperty = some vp → vp ≠ meta.primaryKeys.headD "")
    (hdrv : ∀ r, P.driver.nativeInsert st.trace.length cs.name cs.payload
      = Except.ok r → isDefinedStrict (insertIdVal meta r.insertId) = true)
    (h : persistNewEntity P cs st = Res.ok (cs', st')) :
    isDefinedStrict (primaryKeyVal meta cs'.entity) = true ∧
    (∀ vp, meta.versionProperty = some vp →
      ∃ i row, P.driver.findOne i meta.name (primaryKeyVal meta cs'.entity) [vp]
          = Except.ok (some row) ∧
        getV cs'.entity.props vp = getV row vp) := by
  unfold persistNewEntity at h
  rw [hm] at h
  simp only [] at h
  split at h
  · simp at h
  · rename_i res hres
    have hid := hdrv res hres
    split at h
    · simp at h
    · rename_i csB stB heqB
      have hpkB : isDefinedStrict (primaryKeyVal meta csB.entity) = true := by
        by_cases hpk : isDefinedStrict (primaryKeyVal meta cs.entity) = true
        · rw [hpk] at heqB
          simp only [Bool.not_true, Bool.false_eq_true, if_false, Res.ok.injEq,
            Prod.mk.injEq] at heqB
          obtain ⟨e1, e2⟩ := heqB
          subst e1
          show isDefinedStrict (getV (mapReturnedValues cs.entity res meta).props _) = true
          rw [mapReturnedValues_preserves_defined cs.entity res meta _ hpk]
          exact hpk
        · have hpkf : isDefinedStrict (primaryKeyVal meta cs.entity) = false := by
            simpa using hpk
          rw [hpkf] at heqB
          simp only [Bool.not_false, if_true] at heqB
          obtain ⟨prop, hfind, hcsB, huuidB, htrB, hidB⟩ :=
            mapPrimaryKey_ok_spec meta _ _ _ _ _ heqB
          subst hcsB
          simp only []
          split
          · rename_i hdefA
            exact hdefA
          · show isDefinedStrict (getV (setV (mapReturnedValues cs.entity res meta).props
              (meta.primaryKeys.headD "") (applyCustomType prop res.insertId))
              (meta.primaryKeys.headD "")) = true
            rw [getV_setV_self]
            have hconv : insertIdVal meta res.insertId = applyCustomType prop res.insertId := by
              unfold insertIdVal
              rw [hfind]
            rw [← hconv]
            exact hid
      split at h
      · simp at h
      · rename_i csD stD heqD
        simp only [Res.ok.injEq, Prod.mk.injEq] at h
        obtain ⟨h1, h2⟩ := h
        subst h1
        subst h2
        have hspec := processOptimisticLock_ok_spec P meta _ (some res) stB csD stD heqD
        cases hvv : meta.versionProperty with
        | none =>
          obtain ⟨-, -, -, -, -, -, -, -, hnone, -⟩ := hspec
          obtain ⟨hcseq, hsteq⟩ := hnone hvv
          subst hcseq
          constructor
          · exact hpkB
          · intro vp hvpp
            exact Option.noConfusion hvpp
        | some vp =>
          obtain ⟨-, -, -, -, -, -, -, -, -, hsome⟩ := hspec
          obtain ⟨row, hfind2, hprops, htrace⟩ := hsome vp hvv
          have hne : vp ≠ meta.primaryKeys.headD "" := hvp vp hvv
          have hpkD : primaryKeyVal meta csD.entity = primaryKeyVal meta csB.entity := by
            show getV csD.entity.props _ = getV csB.entity.props _
            rw [hprops]
            exact getV_setV_ne _ _ _ _ (Ne.symm hne)
          constructor
          · show isDefinedStrict (primaryKeyVal meta csD.entity) = true
            rw [hpkD]
            exact hpkB
          · intro vp' hvp'
            cases hvp'
            refine ⟨stB.trace.length, row, ?_, ?_⟩
            · show P.driver.findOne _ meta.name (primaryKeyVal meta csD.entity) [vp]
                = Except.ok (some row)
              rw [hpkD]
              exact hfind2
            · show getV csD.entity.props vp = getV row vp
              rw [hprops]
              exact getV_setV_self _ _ _

/-- Witness for C3: a successful versioned update issues the follow-up
lookup for primary key 7 restricted to the version column, and the entity's
version becomes the looked-up value 2 (differing from the version 1 sent in
the predicate). -/
theorem claim3_witness :
    DriverCall.findOne "User" (Val.num 7) ["version"] ∈ st3out.trace ∧
    getV cs3out.entity.props "version" = Val.num 2 := by
  obtain ⟨i, row, hfind, hmem, hver⟩ := claim3_version_refresh PVer2 csVer1
    stEmpty metaVer "version" cs3out st3out rfl rfl (by decide)
    (Or.inr ⟨rfl, by decide⟩)
  exact ⟨hmem, by decide⟩

/-- C8 (amended): when the driver call for the k-th (property-resolved)
change set of an insert or update batch fails, the opaque driver error
propagates unmodified and aborts the batch: every change set before the k-th
already has its persisted flag true, and every later change set receives no
driver call and is returned exactly as the upfront property-resolution pass
left it — the final state is the k-th step's state.  (The claim's "neither
its payload nor its entity is modified by the call" fails for the later
change sets: the upfront `processProperties` pass over the whole batch
mutates them before the first driver call, see the counterexample.) -/
theorem claim8_error_propagation :
    (∀ (P : Persister) (batch : List ChangeSet) (st : PState)
       (batchP : List ChangeSet) (st0 : PState) (pre : List ChangeSet)
       (csk : ChangeSet) (post : List ChangeSet) (pre' : List ChangeSet)
       (st1 : PState) (c : Nat) (csk' : ChangeSet) (st2 : PState),
       processAll P batch st = Res.ok (batchP, st0) →
       batchP = pre ++ csk :: post →
       insertLoop P pre st0 = Res.ok (pre', st1) →
       persistNewEntity P csk st1 = Res.err (PersistError.driver c) (csk', st2) →
       executeInserts P batch st =
         Res.err (PersistError.driver c) (pre' ++ csk' :: post, st2) ∧
       ∀ cs ∈ pre', cs.persisted = true) ∧
    (∀ (P : Persister) (batch : List ChangeSet) (st : PState)
       (batchP : List ChangeSet) (st0 : PState) (pre : List ChangeSet)
       (csk : ChangeSet) (post : List ChangeSet) (pre' : List ChangeSet)
       (st1 : PState) (c : Nat) (csk' : ChangeSet) (st2 : PState),
       processAll P batch st = Res.ok (batchP, st0) →
       batchP = pre ++ csk :: post →
       updateLoop P pre st0 = Res.ok (pre', st1) →
       persistManagedEntity P csk st1 = Res.err (PersistError.driver c) (csk', st2) →
       executeUpdates P batch st =
         Res.err (PersistError.driver c) (pre' ++ csk' :: post, st2) ∧
       ∀ cs ∈ pre', cs.persisted = true) := by
  constructor
  · intro P batch st batchP st0 pre csk post pre' st1 c csk' st2
    intro hproc hsplit hpre hk
    constructor
    · unfold executeInserts
      rw [hproc]
      simp only []
      rw [hsplit]
      rw [insertLoop_append_ok P pre (csk :: post) st0 pre' st1 hpre]
      rw [insertLoop_cons_err P csk post st1 _ _ _ hk]
    · intro cs hcs
      obtain ⟨c0, s0, s1, hc0, hrun⟩ :=
        insertLoop_ok_mem P pre st0 pre' st1 hpre cs hcs
      exact (persistNewEntity_ok_spec P c0 s0 cs s1 hrun).2.2.1
  · intro P batch st batchP st0 pre csk post pre' st1 c csk' st2
    intro hproc hsplit hpre hk
    constructor
    · unfold executeUpdates
      rw [hproc]
      simp only []
      rw [hsplit]
      rw [updateLoop_append_ok P pre (csk :: post) st0 pre' st1 hpre]
      rw [updateLoop_cons_err P csk post st1 _ _ _ hk]
    · intro cs hcs
      obtain ⟨c0, s0, s1, hc0, hrun⟩ :=
        updateLoop_ok_mem P pre st0 pre' st1 hpre cs hcs
      exact (persistManagedEntity_ok_spec P c0 s0 cs s1 hrun).2.2.1

/-- Witness for C8: a two-element insert batch whose first driver insert
fails with code 7 aborts with exactly that error, one driver call issued,
and both change sets carried back. -/
theorem claim8_witness :
    executeInserts PFail [csNew1, csNew2] stEmpty =
      Res.err (PersistError.driver 7)
        ([csNew1, csNew2], ⟨[DriverCall.nativeInsert "User" []], []⟩) := by
  have h := (claim8_error_propagation).1 PFail [csNew1, csNew2] stEmpty
    [csNew1, csNew2] stEmpty [] csNew1 [csNew2] [] stEmpty 7 csNew1
    ⟨[DriverCall.nativeInsert "User" []], []⟩ rfl rfl rfl (by decide)
  rw [h.1]
  decide

/-- Counterexample for C8 as stated: the first insert of the batch fails, so
the second change set never receives a driver call — yet its payload has
already been modified: the upfront property-resolution pass ran the key
property's compute-on-create hook on every change set before the first
driver call, writing 99 into the second change set's payload. -/
theorem claim8_counterexample :
    (executeInserts PFailHook [csNew1, csNew2] stCells2).errOf
      = some (PersistError.driver 7) ∧
    getV csNew2.payload "id" = Val.undef ∧
    getV ((executeInserts PFailHook [csNew1, csNew2] stCells2).val.1.getLastD
      csNew1).payload "id" = Val.num 99 ∧
    (Val.num 99 : Val) ≠ Val.undef := by
  refine ⟨?_, by decide, ?_, by decide⟩
  · rfl
  · rfl

/-- C1 (amended): for every CREATE batch on which `executeInserts` returns
successfully, every returned change set's persisted flag is true, every
entity's populated flag is set, its initialized flag is true, and for a
versioned type the entity's version property holds the value fetched by the
follow-up lookup; every entity's primary key is defined, provided the
version property is not a primary-key property and every successful driver
insert reports a generated id that is defined after the key property's
custom conversion.  (Without the generated-id proviso the claim fails: a
driver reporting a `null` insert id leaves the key undefined on a successful
call, see the counterexample.) -/
theorem claim1_insert_guarantees (P : Persister) (batch : List ChangeSet)
    (st : PState) (out : List ChangeSet × PState)
    (hmeta : ∀ cs ∈ batch, ∃ meta, P.metadata.find cs.name = some meta ∧
      ∀ vp, meta.versionProperty = some vp → vp ≠ meta.primaryKeys.headD "")
    (hdrvG : ∀ i n p r m, P.driver.nativeInsert i n p = Except.ok r →
      P.metadata.find n = some m → isDefinedStrict (insertIdVal m r.insertId) = true)
    (hok : executeInserts P batch st = Res.ok out) :
    ∀ cs' ∈ out.1,
      cs'.persisted = true ∧
      cs'.entity.populatedFlag = true ∧
      cs'.entity.initialized = true ∧
      ∀ meta, P.metadata.find cs'.name = some meta →
        isDefinedStrict (primaryKeyVal meta cs'.entity) = true ∧
        ∀ vp, meta.versionProperty = some vp →
          ∃ i row, P.driver.findOne i meta.name (primaryKeyVal meta cs'.entity) [vp]
              = Except.ok (some row) ∧
            getV cs'.entity.props vp = getV row vp := by
  intro cs' hmem
  unfold executeInserts at hok
  split at hok
  · simp at hok
  · rename_i batchP st0 hproc
    obtain ⟨cs, s0, s1, hcsin, hrun⟩ :=
      insertLoop_ok_mem P batchP st0 out.1 out.2 hok cs' hmem
    obtain ⟨b1, b2, b3, b4, b5, b6⟩ := persistNewEntity_ok_spec P cs s0 cs' s1 hrun
    obtain ⟨cs0, t0, t1, hcs0in, hpp⟩ :=
      processAll_ok_mem P batch st batchP st0 hproc cs hcsin
    obtain ⟨n1, -, -, -⟩ := processProperties_ok_basic P cs0 t0 cs t1 hpp
    obtain ⟨meta, hm0, hvp⟩ := hmeta cs0 hcs0in
    rw [← n1] at hm0
    have hdrvL : ∀ r, P.driver.nativeInsert s0.trace.length cs.name cs.payload
        = Except.ok r → isDefinedStrict (insertIdVal meta r.insertId) = true :=
      fun r hr => hdrvG _ _ _ r meta hr hm0
    obtain ⟨hpk, hver⟩ := persistNewEntity_ok_full P cs s0 cs' s1 meta hm0 hvp hdrvL hrun
    refine ⟨b3, b4, b5, ?_⟩
    intro meta' hm'
    have hmm : meta' = meta := by
      rw [b1, hm0] at hm'
      exact (Option.some.inj hm').symm
    subst hmm
    exact ⟨hpk, hver⟩

/-- Witness for C1: inserting a fresh versioned entity with the happy driver
yields persisted true, populated and initialized flags set, a defined key 42
and version 1 from the follow-up lookup. -/
theorem claim1_witness :
    cs1out.persisted = true ∧ cs1out.entity.populatedFlag = true ∧
    cs1out.entity.initialized = true ∧
    isDefinedStrict (primaryKeyVal metaVer cs1out.entity) = true ∧
    getV cs1out.entity.props "version" = Val.num 1 := by
  have h := claim1_insert_guarantees PVer [csNew1] stCellU1 ([cs1out], st1out)
    (by
      intro cs hcs
      refine ⟨metaVer, ?_, ?_⟩
      · rcases List.mem_singleton.mp hcs with hc
        subst hc
        rfl
      · intro vp hv
        cases hv
        decide)
    (by
      intro i n p r m hr hm
      injection hr with hr1
      subst hr1
      by_cases hn : n = "User"
      · subst hn
        have : some metaVer = some m := hm
        cases this
        decide
      · exfalso
        have : (PVer.metadata.find n) = none := by
          simp [PVer, storeOf, hn]
        rw [this] at hm
        exact Option.noConfusion hm)
    (by decide)
  obtain ⟨p1, p2, p3, p4⟩ := h cs1out (List.mem_singleton_self cs1out)
  obtain ⟨pk, -⟩ := p4 metaVer rfl
  exact ⟨p1, p2, p3, pk, by decide⟩

/-- Counterexample for C1 as stated: a driver that reports a `null`
generated insert id lets `executeInserts` succeed while the entity's primary
key remains undefined. -/
theorem claim1_counterexample :
    (executeInserts PNullId [csNew1] stCellU1).isOk = true ∧
    isDefinedStrict (primaryKeyVal metaPlain
      ((executeInserts PNullId [csNew1] stCellU1).val.1.headD csNew1).entity)
      = false := by decide

end CSP